import Mathlib

/-!
# Verification of the AUVTrainer pipeline supervisor (`src/auvtrainer/run.py`)

Shallow embedding of the multi-process pipeline supervisor: the data model
(`WaitSpec`, `ProcSpec`, `PipelineSpec`), the process launcher's environment
construction (`_project_env` / `_popen`), the readiness gate (`_http_ok`,
`_wait_sleep`, `_wait_http`, `_apply_wait`), the shutdown cascade
(`_terminate_process`, `_shutdown_all`) and the supervisor loop
(`run_pipeline`).

External behaviour (OS processes, the network, the wall clock, operator
interrupts) is captured by a `World` oracle.  Time is modelled as ℚ; every
`time.sleep(d)` advances the clock by exactly `d` and every other operation is
instantaneous.  Each launched process is identified by its launch index (the
position at which it was started); `World.pexit i t` is what `Popen.poll()`
of process `i` returns at time `t` (`none` = still running, `some c` = exited
with code `c`).  A `KeyboardInterrupt` is delivered at a blocking operation
occurring at time `t` exactly when `World.intr t = true`.  The two unbounded
loops (the HTTP readiness poll loop and the monitoring loop) take a fuel
parameter; running out of fuel produces a dedicated `fuelOut` result that is
distinct from every real outcome of the program.
-/

set_option linter.unusedVariables false
set_option maxRecDepth 100000

/- Batteries marks the arithmetic on `Rat` `@[irreducible]`, which prevents
`decide` from evaluating concrete pipeline runs; restore the ordinary
reducibility of those plain definitions (this does not change their
meaning, only unfolding behaviour). -/
set_option allowUnsafeReducibility true
attribute [semireducible] Rat.mul Rat.add Rat.sub Rat.div Rat.inv

/-- A value returned by `Popen.poll()` for an exited process: in CPython this
is an `int`, but `run_pipeline` defends against a non-`int` value
(`int(code) if isinstance(code, int) else 1`), so the model keeps both
possibilities. -/
inductive PyVal : Type
  | i (n : Int) : PyVal
  | other : PyVal
deriving DecidableEq, Repr

/-- The expression `int(code) if isinstance(code, int) else 1` from
`run_pipeline`. -/
def pyValToInt : PyVal → Int
  | .i n => n
  | .other => 1

/-- Readiness check definition (dataclass `WaitSpec`).  `deadline_s` and
`poll_s` carry the source defaults `30.0` and `0.25`. -/
structure WaitSpec : Type where
  kind : String
  target : String
  deadline_s : ℚ := 30
  poll_s : ℚ := 1/4
deriving DecidableEq, Repr

/-- Subprocess specification (dataclass `ProcSpec`).  `env` is an association
list modelling the optional `dict[str, str]` of overrides. -/
structure ProcSpec : Type where
  name : String
  cmd : List String
  cwd : Option String := none
  env : Option (List (String × String)) := none
  wait : Option WaitSpec := none
deriving DecidableEq, Repr

/-- Pipeline specification (dataclass `PipelineSpec`). -/
structure PipelineSpec : Type where
  name : String
  steps : List ProcSpec
  primary : Option String := none
deriving DecidableEq, Repr

/-- The external world the supervisor runs in.

* `osEnv` — `os.environ` as an association list.
* `pexit i t` — result of `poll()` on the `i`-th launched process at time `t`.
* `httpResp url t` — outcome of `urllib.request.urlopen(url)` at time `t`:
  `none` models any exception, `some s` a response with HTTP status `s`.
* `intr t` — whether a `KeyboardInterrupt` is delivered at a blocking
  operation happening at time `t`.
* `parseFloat s` — Python's `float(s)`, used for `float(wait.target)` on
  sleep gates (the claims never depend on its value). -/
structure World : Type where
  osEnv : List (String × String)
  pexit : ℕ → ℚ → Option PyVal
  httpResp : String → ℚ → Option ℕ
  intr : ℚ → Bool
  parseFloat : String → ℚ

/-- Observable events of a supervisor run, tagged with the launch index of
the process involved. -/
inductive Ev : Type
  | launch (i : ℕ) (name : String)
  | gate (i : ℕ) (name : String)
  | exitLog (i : ℕ) (name : String) (code : PyVal)
  | sigterm (i : ℕ) (name : String)
  | sigkill (i : ℕ) (name : String)
deriving DecidableEq, Repr

/-- The exceptions `run_pipeline`'s try-block can raise (all of them are
caught by `except Exception` and mapped to exit code 1). -/
inductive PyErr : Type
  | earlyExit (name : String) (code : PyVal)
  | readinessTimeout (url : String)
  | unknownWaitKind (kind : String)
deriving DecidableEq, Repr

/-! ## Environment construction (`_project_env`, `_popen`) -/

/-- Python `dict` assignment `e[k] = v` on an association list (as built by
`dict(...)`, keys are unique): replace the binding at key `k` in place when
present, otherwise append the new binding. -/
def dset : List (String × String) → String → String → List (String × String)
  | [], k, v => [(k, v)]
  | p :: e, k, v => if p.1 = k then (k, v) :: e else p :: dset e k v

/-- Python `dict` lookup `e.get(k)` on an association list. -/
def dlookup (e : List (String × String)) (k : String) : Option String :=
  (e.find? (fun p => p.1 = k)).map (fun p => p.2)

/-- Python `e.update(m)`: assign every binding of `m` into `e`, in order. -/
def dupdate (e m : List (String × String)) : List (String × String) :=
  m.foldl (fun a p => dset a p.1 p.2) e

/-- Model of `_project_env`: copy `os.environ` and force
`PYTHONUNBUFFERED = "1"`. -/
def project_env (w : World) : List (String × String) :=
  dset w.osEnv "PYTHONUNBUFFERED" "1"

/-- The environment passed to `subprocess.Popen` by `_popen`: the projected
environment, updated with `spec.env` when that is truthy (Python's
`if spec.env:` skips both `None` and the empty dict). -/
def popen_env (w : World) (spec : ProcSpec) : List (String × String) :=
  match spec.env with
  | none => project_env w
  | some e => if e.isEmpty then project_env w else dupdate (project_env w) e

/-! ## Readiness gate (`_http_ok`, `_wait_sleep`, `_wait_http`, `_apply_wait`) -/

/-- The default per-attempt timeout of `_http_ok` (`timeout_s: float = 1.5`).
`_wait_http` always calls `_http_ok(url)` with this default. -/
def http_ok_default_timeout : ℚ := 3/2

/-- Model of `_http_ok`: issue a GET and report whether the response status lies in
`[200, 400)`; any exception yields `False`.  The response itself is given by
the world; the per-attempt timeout bounds the blocking call's duration and
does not otherwise influence the outcome. -/
def http_ok (w : World) (url : String) (timeout_s : ℚ) (t : ℚ) : Bool :=
  match w.httpResp url t with
  | none => false
  | some status => decide (200 ≤ status) && decide (status < 400)

/-- Result of a readiness gate: success, interrupt, exception, or model fuel
exhaustion (never produced by the program itself). -/
inductive GateRes : Type
  | ok (t : ℚ)
  | intr (t : ℚ)
  | err (e : PyErr) (t : ℚ)
  | fuelOut (t : ℚ)
deriving DecidableEq, Repr

/-- Model of `_wait_sleep`: `time.sleep(seconds)`.  An interrupt pending at the start
of the sleep raises `KeyboardInterrupt`; otherwise the clock advances. -/
def wait_sleep (w : World) (seconds : ℚ) (t : ℚ) : GateRes :=
  if w.intr t then .intr t else .ok (t + seconds)

/-- Model of `_wait_http`: `while (time.time() - start) < deadline_s: if _http_ok(url):
return; time.sleep(poll_s)` and a timeout error once the loop condition
fails.  `start` is the recorded start time, `t` the current time. -/
def wait_http (w : World) (url : String) (deadline poll : ℚ) :
    ℕ → ℚ → ℚ → GateRes
  | fuel, start, t =>
    if t - start < deadline then
      match fuel with
      | 0 => .fuelOut t
      | fuel + 1 =>
        if w.intr t then .intr t
        else if http_ok w url http_ok_default_timeout t then .ok t
        else wait_http w url deadline poll fuel start (t + poll)
    else .err (.readinessTimeout url) t

/-- Model of `_apply_wait`: dispatch on `wait.kind`; any kind other than `"sleep"`
and `"http"` raises `ValueError` — there is no earlier validation of the
kind anywhere in the source. -/
def apply_wait (w : World) (wait : WaitSpec) (fuel : ℕ) (t : ℚ) : GateRes :=
  if wait.kind = "sleep" then wait_sleep w (w.parseFloat wait.target) t
  else if wait.kind = "http" then
    wait_http w wait.target wait.deadline_s wait.poll_s fuel t t
  else .err (.unknownWaitKind wait.kind) t

/-! ## Shutdown cascade (`_terminate_process`, `_shutdown_all`) -/

/-- Fuel that provably suffices for the grace-period poll loop of
`_terminate_process` (any natural number `≥ grace * 10` would do; the
numerator of `grace * 10` dominates it). -/
def termFuel (grace : ℚ) : ℕ := (grace * 10).num.toNat + 1

/-- The grace-period poll loop of `_terminate_process`:
`while (time.time() - start) < grace_s: if proc.poll() is not None: return;
time.sleep(0.1)`.  The `k`-th iteration polls at elapsed time `k / 10`.
Returns `some (true, t)` when the process was observed exited at time `t`
(inside the grace window), `some (false, t)` when the window elapsed with the
process still alive, and `none` on fuel exhaustion (unreachable with
`termFuel grace` fuel, see `termLoop_fuel_sufficient`). -/
def termLoop (w : World) (i : ℕ) (grace : ℚ) :
    ℕ → ℕ → ℚ → Option (Bool × ℚ)
  | fuel, k, t =>
    if (k : ℚ) * (1/10) < grace then
      match fuel with
      | 0 => none
      | fuel + 1 =>
        if (w.pexit i t).isSome then some (true, t)
        else termLoop w i grace fuel (k + 1) (t + 1/10)
    else some (false, t)

/-- Model of `_terminate_process`: return immediately when the process has already
exited (no signal at all); otherwise send the graceful terminate signal
(`SIGTERM` / `terminate()`, failures swallowed), poll through the grace
window, and force-kill (`kill()`, failures swallowed) only when the window
elapses with the process still alive.  Returns the emitted signal events and
the time at which the call returns. -/
def terminate_process (w : World) (i : ℕ) (name : String) (grace : ℚ)
    (t : ℚ) : List Ev × ℚ :=
  if (w.pexit i t).isSome then ([], t)
  else
    match termLoop w i grace (termFuel grace) 0 t with
    | some (true, t') => ([.sigterm i name], t')
    | some (false, t') => ([.sigterm i name, .sigkill i name], t')
    | none => ([.sigterm i name], t)

/-- The body of `_shutdown_all`: terminate each listed process in list order
(the caller passes the tracked list already reversed), threading time. -/
def shutdownList (w : World) : List (String × ℕ) → ℚ → List Ev × ℚ
  | [], t => ([], t)
  | p :: rest, t =>
    let r := terminate_process w p.2 p.1 6 t
    let r2 := shutdownList w rest r.2
    (r.1 ++ r2.1, r2.2)

/-- Model of `_shutdown_all`: `for name, p in reversed(procs): _terminate_process(p,
name)` with the default grace period of 6 seconds. -/
def shutdown_all (w : World) (procs : List (String × ℕ)) (t : ℚ) :
    List Ev × ℚ :=
  shutdownList w procs.reverse t

/-! ## Supervisor (`run_pipeline`) -/

/-- Result of the startup phase (the `for step in pipeline.steps` loop). -/
inductive StartRes : Type
  | ok (procs : List (String × ℕ)) (t : ℚ) (evs : List Ev)
  | intr (procs : List (String × ℕ)) (t : ℚ) (evs : List Ev)
  | err (e : PyErr) (procs : List (String × ℕ)) (t : ℚ) (evs : List Ev)
  | fuelOut (procs : List (String × ℕ)) (t : ℚ) (evs : List Ev)
deriving DecidableEq, Repr

/-- The startup loop of `run_pipeline`: launch each step in order, append it
to the tracked list and, when it has a wait spec, first poll for an early
exit (raising `RuntimeError` if the process is already dead — the gate is
never applied then) and otherwise apply the readiness gate.  `i` is the
launch index of the next step. -/
def startupAux (w : World) (fuel : ℕ) :
    List ProcSpec → ℕ → List (String × ℕ) → ℚ → List Ev → StartRes
  | [], _, procs, t, evs => .ok procs t evs
  | step :: rest, i, procs, t, evs =>
    let procs' := procs ++ [(step.name, i)]
    let evs' := evs ++ [.launch i step.name]
    match step.wait with
    | none => startupAux w fuel rest (i + 1) procs' t evs'
    | some ws =>
      match w.pexit i t with
      | some c => .err (.earlyExit step.name c) procs' t evs'
      | none =>
        let evs'' := evs' ++ [.gate i step.name]
        match apply_wait w ws fuel t with
        | .ok t' => startupAux w fuel rest (i + 1) procs' t' evs''
        | .intr t' => .intr procs' t' evs''
        | .err e t' => .err e procs' t' evs''
        | .fuelOut t' => .fuelOut procs' t' evs''

/-- One scan of the monitoring loop's `for name, p in procs` body: the first
tracked process (in start order) whose `poll()` is non-`None` at time `t`. -/
def pollFirst (w : World) : List (String × ℕ) → ℚ → Option (String × ℕ × PyVal)
  | [], _ => none
  | p :: rest, t =>
    match w.pexit p.2 t with
    | some c => some (p.1, p.2, c)
    | none => pollFirst w rest t

/-- Result of the whole try-block of `run_pipeline`. -/
inductive BodyRes : Type
  | exited (i : ℕ) (name : String) (code : PyVal)
      (procs : List (String × ℕ)) (t : ℚ) (evs : List Ev)
  | intr (procs : List (String × ℕ)) (t : ℚ) (evs : List Ev)
  | err (e : PyErr) (procs : List (String × ℕ)) (t : ℚ) (evs : List Ev)
  | fuelOut (procs : List (String × ℕ)) (t : ℚ) (evs : List Ev)
deriving DecidableEq, Repr

/-- The monitoring loop: `while True:` poll every tracked process in start
order; on the first exited one, log and report it; otherwise
`time.sleep(0.2)` and repeat.  An interrupt pending at the top of an
iteration raises `KeyboardInterrupt`. -/
def monitorLoop (w : World) (procs : List (String × ℕ)) :
    ℕ → ℚ → BodyRes
  | 0, t => .fuelOut procs t []
  | fuel + 1, t =>
    if w.intr t then .intr procs t []
    else
      match pollFirst w procs t with
      | some (n, i, c) => .exited i n c procs t [.exitLog i n c]
      | none => monitorLoop w procs fuel (t + 1/5)

/-- The whole try-block of `run_pipeline`: the startup loop followed by the
monitoring loop. -/
def tryBody (w : World) (pl : PipelineSpec) (fuel : ℕ) : BodyRes :=
  match startupAux w fuel pl.steps 0 [] 0 [] with
  | .ok procs t evs =>
    match monitorLoop w procs fuel t with
    | .exited i n c procs' t' evs' => .exited i n c procs' t' (evs ++ evs')
    | .intr procs' t' evs' => .intr procs' t' (evs ++ evs')
    | .err e procs' t' evs' => .err e procs' t' (evs ++ evs')
    | .fuelOut procs' t' evs' => .fuelOut procs' t' (evs ++ evs')
  | .intr procs t evs => .intr procs t evs
  | .err e procs t evs => .err e procs t evs
  | .fuelOut procs t evs => .fuelOut procs t evs

/-- Model of `run_pipeline`: run the try-block, then the exception dispatch.
A tracked process exiting during monitoring triggers the shutdown cascade on
every *other* tracked process (`pp is not p`) and returns `int(code)` (or 1
for a non-int code); `KeyboardInterrupt` triggers the cascade on all tracked
processes and returns 0; any other exception triggers the cascade on all
tracked processes and returns 1.  `none` is the model's fuel-exhaustion
artefact. -/
def run_pipeline (w : World) (pl : PipelineSpec) (fuel : ℕ) :
    Option (Int × List Ev) :=
  match tryBody w pl fuel with
  | .exited i _n c procs t evs =>
    let r := shutdown_all w (procs.filter (fun p => p.2 ≠ i)) t
    some (pyValToInt c, evs ++ r.1)
  | .intr procs t evs =>
    let r := shutdown_all w procs t
    some (0, evs ++ r.1)
  | .err _e procs t evs =>
    let r := shutdown_all w procs t
    some (1, evs ++ r.1)
  | .fuelOut _ _ _ => none

/-! ## Trace observation helpers -/

/-- The tracked-list entries `(name, index)` created by launching `steps`
starting at launch index `i`. -/
def trackedFrom : ℕ → List ProcSpec → List (String × ℕ)
  | _, [] => []
  | i, s :: rest => (s.name, i) :: trackedFrom (i + 1) rest

/-- The launch events of a trace, in order. -/
def launchesOf (evs : List Ev) : List (ℕ × String) :=
  evs.filterMap fun e =>
    match e with
    | .launch i n => some (i, n)
    | _ => none

/-- The launch indices of the graceful-terminate signals of a trace, in
order. -/
def sigtermIdxs (evs : List Ev) : List ℕ :=
  evs.filterMap fun e =>
    match e with
    | .sigterm i _ => some i
    | _ => none

/-- The launch indices of the force-kill signals of a trace, in order. -/
def sigkillIdxs (evs : List Ev) : List ℕ :=
  evs.filterMap fun e =>
    match e with
    | .sigkill i _ => some i
    | _ => none

/-- The launch index an event refers to. -/
def evIdx : Ev → ℕ
  | .launch i _ => i
  | .gate i _ => i
  | .exitLog i _ _ => i
  | .sigterm i _ => i
  | .sigkill i _ => i

/-- Replace the poll script of process `k` in a world (used to state that
startup never polls a process whose step has no wait spec). -/
def setExit (w : World) (k : ℕ) (g : ℚ → Option PyVal) : World :=
  { w with pexit := fun i u => if i = k then g u else w.pexit i u }

/-! ## Lemmas about the grace-period loop and `terminate_process` -/

/-- The loop condition of the grace-period poll loop, for the default grace
period of 6 seconds: the `k`-th poll happens inside the window iff `k < 60`. -/
theorem termLoop_cond (k : ℕ) : ((k : ℚ) * (1/10) < 6) ↔ k < 60 := by
  constructor
  · intro h
    have hq : (k : ℚ) < 60 := by linarith
    exact_mod_cast hq
  · intro h
    have hq : (k : ℚ) < 60 := by exact_mod_cast h
    linarith

/-- If some poll inside the grace window observes the process exited, the
grace-period loop stops with `true` (and the process is not force-killed). -/
theorem termLoop_finds (w : World) (i : ℕ) :
    ∀ (j f k : ℕ) (t : ℚ), j < f → k + j < 60 →
      (w.pexit i (t + (j : ℚ) * (1/10))).isSome = true →
      ∃ t', termLoop w i 6 f k t = some (true, t') := by
  intro j
  induction j with
  | zero =>
    intro f k t hf hk hsome
    match f, hf with
    | f + 1, _ =>
      rw [termLoop]
      rw [if_pos ((termLoop_cond k).mpr (by omega))]
      simp only [Nat.cast_zero, zero_mul, add_zero] at hsome
      rw [hsome]
      exact ⟨t, rfl⟩
  | succ j ih =>
    intro f k t hf hk hsome
    match f, hf with
    | f + 1, hf =>
      rw [termLoop]
      rw [if_pos ((termLoop_cond k).mpr (by omega))]
      cases hpoll : (w.pexit i t).isSome with
      | true => exact ⟨t, rfl⟩
      | false =>
        apply ih f (k + 1) (t + 1/10) (by omega) (by omega)
        have harith : t + 1/10 + (j : ℚ) * (1/10) = t + ((j : ℚ) + 1) * (1/10) := by ring
        rw [harith]
        have hcast : ((j + 1 : ℕ) : ℚ) = (j : ℚ) + 1 := by push_cast; ring
        rw [hcast] at hsome
        exact hsome

/-- If every poll inside the grace window observes the process still running,
the grace-period loop falls through with `false` at exactly the end of the
window. -/
theorem termLoop_elapses (w : World) (i : ℕ) :
    ∀ (f k : ℕ) (t : ℚ), 60 ≤ k + f →
      (∀ j : ℕ, k + j < 60 → w.pexit i (t + (j : ℚ) * (1/10)) = none) →
      termLoop w i 6 f k t = some (false, t + ((60 - k : ℕ) : ℚ) * (1/10)) := by
  intro f
  induction f with
  | zero =>
    intro k t hf halive
    rw [termLoop]
    rw [if_neg (by rw [termLoop_cond]; omega)]
    have : (60 - k : ℕ) = 0 := by omega
    rw [this]
    norm_num
  | succ f ih =>
    intro k t hf halive
    rw [termLoop]
    by_cases hk : k < 60
    · rw [if_pos ((termLoop_cond k).mpr hk)]
      have h0 : w.pexit i t = none := by
        have := halive 0 (by omega)
        simpa using this
      rw [h0]
      simp only [Option.isSome_none, Bool.false_eq_true, if_false]
      rw [ih (k + 1) (t + 1/10) (by omega) ?halive']
      case halive' =>
        intro j hj
        have := halive (j + 1) (by omega)
        have harith : t + 1/10 + (j : ℚ) * (1/10) = t + ((j + 1 : ℕ) : ℚ) * (1/10) := by
          push_cast; ring
        rw [harith]
        exact this
      have harith2 : t + 1/10 + ((60 - (k + 1) : ℕ) : ℚ) * (1/10)
          = t + ((60 - k : ℕ) : ℚ) * (1/10) := by
        have hsub : (60 - k : ℕ) = (60 - (k + 1) : ℕ) + 1 := by omega
        rw [hsub]
        push_cast
        ring
      rw [harith2]
    · rw [if_neg (by rw [termLoop_cond]; omega)]
      have : (60 - k : ℕ) = 0 := by omega
      rw [this]
      norm_num

/-- Sixty-one units of fuel cover the default grace window. -/
theorem termFuel_six : termFuel 6 = 61 := by decide

/-- A process already observed exited receives no signal at all. -/
theorem terminate_process_dead (w : World) (i : ℕ) (nm : String) (t : ℚ)
    (h : (w.pexit i t).isSome = true) :
    terminate_process w i nm 6 t = ([], t) := by
  rw [terminate_process, if_pos h]

/-- A process that exits within the grace window is signalled gracefully and
never force-killed. -/
theorem terminate_process_graceful (w : World) (i : ℕ) (nm : String) (t : ℚ)
    (h0 : w.pexit i t = none)
    (hexit : ∃ j : ℕ, j < 60 ∧ (w.pexit i (t + (j : ℚ) * (1/10))).isSome = true) :
    (terminate_process w i nm 6 t).1 = [Ev.sigterm i nm] := by
  obtain ⟨j, hj, hsome⟩ := hexit
  obtain ⟨t', hloop⟩ := termLoop_finds w i j (termFuel 6) 0 t
    (by rw [termFuel_six]; omega) (by omega) hsome
  rw [terminate_process, if_neg (by rw [h0]; simp), hloop]

/-- A process that stays alive through the whole grace window is force-killed
exactly 6 seconds after the graceful signal. -/
theorem terminate_process_kill (w : World) (i : ℕ) (nm : String) (t : ℚ)
    (halive : ∀ j : ℕ, j < 60 → w.pexit i (t + (j : ℚ) * (1/10)) = none) :
    terminate_process w i nm 6 t = ([Ev.sigterm i nm, Ev.sigkill i nm], t + 6) := by
  have h0 : w.pexit i t = none := by
    have := halive 0 (by omega)
    simpa using this
  have hloop := termLoop_elapses w i (termFuel 6) 0 t
    (by rw [termFuel_six]; omega)
    (fun j hj => halive j (by omega))
  rw [terminate_process, if_neg (by rw [h0]; simp), hloop]
  norm_num

/-- The signal trace of `terminate_process` always has one of three shapes:
no signal, graceful only, or graceful followed by force-kill — in particular
the graceful signal always precedes the force-kill and the call never
raises. -/
theorem terminate_process_shape (w : World) (i : ℕ) (nm : String) (g t : ℚ) :
    (terminate_process w i nm g t).1 = []
    ∨ (terminate_process w i nm g t).1 = [Ev.sigterm i nm]
    ∨ (terminate_process w i nm g t).1 = [Ev.sigterm i nm, Ev.sigkill i nm] := by
  rw [terminate_process]
  by_cases h : (w.pexit i t).isSome = true
  · rw [if_pos h]; left; rfl
  · rw [if_neg h]
    match hloop : termLoop w i g (termFuel g) 0 t with
    | some (true, t') => right; left; rfl
    | some (false, t') => right; right; rfl
    | none => right; left; rfl

/-! ## Lemmas about the shutdown cascade -/

/-- Unfolding equation for the cascade body on a non-empty list. -/
theorem shutdownList_cons (w : World) (p : String × ℕ) (rest : List (String × ℕ)) (t : ℚ) :
    shutdownList w (p :: rest) t
      = ((terminate_process w p.2 p.1 6 t).1
            ++ (shutdownList w rest (terminate_process w p.2 p.1 6 t).2).1,
         (shutdownList w rest (terminate_process w p.2 p.1 6 t).2).2) := rfl

/-- Graceful-signal indices distribute over trace concatenation. -/
theorem sigtermIdxs_append (a b : List Ev) :
    sigtermIdxs (a ++ b) = sigtermIdxs a ++ sigtermIdxs b :=
  List.filterMap_append a b _

/-- Force-kill indices distribute over trace concatenation. -/
theorem sigkillIdxs_append (a b : List Ev) :
    sigkillIdxs (a ++ b) = sigkillIdxs a ++ sigkillIdxs b :=
  List.filterMap_append a b _

/-- Characterization of the signals sent by the cascade body over a list of
processes, each of which either stays alive forever or is exited whenever
polled: the graceful signals and the force-kills both hit exactly the alive
ones, in list order. -/
theorem shutdownList_sig (w : World) :
    ∀ (l : List (String × ℕ)) (t : ℚ),
      (∀ p ∈ l, (∀ u, w.pexit p.2 u = none) ∨ (∀ u, (w.pexit p.2 u).isSome = true)) →
      sigtermIdxs (shutdownList w l t).1
          = (l.filter (fun p => (w.pexit p.2 0).isNone)).map Prod.snd
      ∧ sigkillIdxs (shutdownList w l t).1
          = (l.filter (fun p => (w.pexit p.2 0).isNone)).map Prod.snd := by
  intro l
  induction l with
  | nil => intro t _; exact ⟨rfl, rfl⟩
  | cons p rest ih =>
    intro t hconst
    have hrest := fun q hq => hconst q (List.mem_cons_of_mem p hq)
    rcases hconst p (List.mem_cons_self p rest) with halive | hdead
    · have hterm := terminate_process_kill w p.2 p.1 t (fun j _ => halive _)
      have hfilter : (w.pexit p.2 0).isNone = true := by rw [halive 0]; rfl
      have hfc : List.filter (fun q => (w.pexit q.2 0).isNone) (p :: rest)
          = p :: List.filter (fun q => (w.pexit q.2 0).isNone) rest := by
        rw [List.filter_cons, if_pos hfilter]
      obtain ⟨ih1, ih2⟩ := ih (terminate_process w p.2 p.1 6 t).2 hrest
      rw [hterm] at ih1 ih2
      rw [shutdownList_cons, hterm]
      constructor
      · simp only [sigtermIdxs_append, ih1, hfc, List.map_cons]
        rfl
      · simp only [sigkillIdxs_append, ih2, hfc, List.map_cons]
        rfl
    · have hterm := terminate_process_dead w p.2 p.1 t (hdead t)
      have hfilter : (w.pexit p.2 0).isNone = false := by
        have := hdead 0
        cases hx : w.pexit p.2 0 with
        | none => rw [hx] at this; exact absurd this (by simp)
        | some v => rfl
      have hfc : List.filter (fun q => (w.pexit q.2 0).isNone) (p :: rest)
          = List.filter (fun q => (w.pexit q.2 0).isNone) rest := by
        rw [List.filter_cons, if_neg (by rw [hfilter]; exact Bool.false_ne_true)]
      obtain ⟨ih1, ih2⟩ := ih (terminate_process w p.2 p.1 6 t).2 hrest
      rw [hterm] at ih1 ih2
      rw [shutdownList_cons, hterm]
      constructor
      · simp only [sigtermIdxs_append, ih1, hfc]
        rfl
      · simp only [sigkillIdxs_append, ih2, hfc]
        rfl

/-- CLAIM C5.  For every shutdown trigger state (any world and any tracked
list whose processes either run forever or are exited whenever polled) the
shutdown cascade issues its termination signals (both the graceful ones and
the force-kills) to exactly the still-running processes, in exact reverse
start order, and a process that has already exited receives no termination
signal of either kind. -/
theorem claim5_reverse_order_shutdown (w : World) (procs : List (String × ℕ)) (t0 : ℚ)
    (hconst : ∀ p ∈ procs,
      (∀ u, w.pexit p.2 u = none) ∨ (∀ u, (w.pexit p.2 u).isSome = true)) :
    sigtermIdxs (shutdown_all w procs t0).1
        = ((procs.reverse).filter (fun p => (w.pexit p.2 0).isNone)).map Prod.snd
    ∧ sigkillIdxs (shutdown_all w procs t0).1
        = ((procs.reverse).filter (fun p => (w.pexit p.2 0).isNone)).map Prod.snd
    ∧ ∀ p ∈ procs, (w.pexit p.2 0).isSome = true → ∀ nm,
        Ev.sigterm p.2 nm ∉ (shutdown_all w procs t0).1
        ∧ Ev.sigkill p.2 nm ∉ (shutdown_all w procs t0).1 := by
  have hrev : ∀ p ∈ procs.reverse,
      (∀ u, w.pexit p.2 u = none) ∨ (∀ u, (w.pexit p.2 u).isSome = true) :=
    fun p hp => hconst p (List.mem_reverse.mp hp)
  obtain ⟨h1, h2⟩ := shutdownList_sig w procs.reverse t0 hrev
  have hsa : shutdown_all w procs t0 = shutdownList w procs.reverse t0 := rfl
  refine ⟨h1, h2, ?_⟩
  intro p hp hdead nm
  constructor
  · intro hmem
    have hidx : p.2 ∈ sigtermIdxs (shutdown_all w procs t0).1 := by
      rw [sigtermIdxs, List.mem_filterMap]
      exact ⟨Ev.sigterm p.2 nm, hmem, rfl⟩
    rw [hsa] at hidx
    rw [h1, List.mem_map] at hidx
    obtain ⟨q, hq, hqp⟩ := hidx
    rw [List.mem_filter] at hq
    rw [← hqp] at hdead
    rw [Option.isNone_iff_eq_none] at hq
    rw [hq.2] at hdead
    exact Bool.false_ne_true hdead
  · intro hmem
    have hidx : p.2 ∈ sigkillIdxs (shutdown_all w procs t0).1 := by
      rw [sigkillIdxs, List.mem_filterMap]
      exact ⟨Ev.sigkill p.2 nm, hmem, rfl⟩
    rw [hsa] at hidx
    rw [h2, List.mem_map] at hidx
    obtain ⟨q, hq, hqp⟩ := hidx
    rw [List.mem_filter] at hq
    rw [← hqp] at hdead
    rw [Option.isNone_iff_eq_none] at hq
    rw [hq.2] at hdead
    exact Bool.false_ne_true hdead

/-- CLAIM C6.  For every process handed to the shutdown cascade with the
fixed default grace period of 6 seconds: an already-exited process gets no
signal; a still-alive process that exits within the grace window gets the
graceful signal only and is never force-killed; a process alive through the
whole window gets the graceful signal and then a force-kill issued exactly
at the end of the grace period; and on every input the emitted signal
sequence is one of the three shapes (so the graceful signal always precedes
any force-kill and the routine is total — it never raises). -/
theorem claim6_graceful_then_kill (w : World) (i : ℕ) (nm : String) (t : ℚ) :
    ((w.pexit i t).isSome = true → terminate_process w i nm 6 t = ([], t))
    ∧ (w.pexit i t = none →
        (∃ j : ℕ, j < 60 ∧ (w.pexit i (t + (j : ℚ) * (1/10))).isSome = true) →
        (terminate_process w i nm 6 t).1 = [Ev.sigterm i nm])
    ∧ ((∀ j : ℕ, j < 60 → w.pexit i (t + (j : ℚ) * (1/10)) = none) →
        terminate_process w i nm 6 t = ([Ev.sigterm i nm, Ev.sigkill i nm], t + 6))
    ∧ ((terminate_process w i nm 6 t).1 = []
        ∨ (terminate_process w i nm 6 t).1 = [Ev.sigterm i nm]
        ∨ (terminate_process w i nm 6 t).1 = [Ev.sigterm i nm, Ev.sigkill i nm]) :=
  ⟨fun h => terminate_process_dead w i nm t h,
   fun h0 hex => terminate_process_graceful w i nm t h0 hex,
   fun hal => terminate_process_kill w i nm t hal,
   terminate_process_shape w i nm 6 t⟩

/-- A world exercising the three behaviours of `terminate_process`: process 2
is already exited, process 1 exits one poll into the grace window, process 0
never exits on its own. -/
def wTermW : World :=
  { osEnv := [], httpResp := fun _ _ => none, intr := fun _ => false,
    parseFloat := fun _ => 0,
    pexit := fun i u =>
      if i = 2 then some (.i 0)
      else if i = 1 then (if (1/10 : ℚ) ≤ u then some (.i 0) else none)
      else none }

/-- Witness for CLAIM C6 at concrete inputs. -/
theorem claim6_witness :
    terminate_process wTermW 2 "db" 6 0 = ([], 0)
    ∧ (terminate_process wTermW 1 "controls" 6 0).1 = [Ev.sigterm 1 "controls"]
    ∧ terminate_process wTermW 0 "sim" 6 0 = ([Ev.sigterm 0 "sim", Ev.sigkill 0 "sim"], 0 + 6) :=
  ⟨(claim6_graceful_then_kill wTermW 2 "db" 0).1 (by decide),
   (claim6_graceful_then_kill wTermW 1 "controls" 0).2.1 (by decide) ⟨1, by decide, by decide⟩,
   (claim6_graceful_then_kill wTermW 0 "sim" 0).2.2.1 (by decide)⟩

/-- A world in which process 1 is exited whenever polled and processes 0 and
2 run forever. -/
def wFiveW : World :=
  { osEnv := [], httpResp := fun _ _ => none, intr := fun _ => false,
    parseFloat := fun _ => 0,
    pexit := fun i _ => if i = 1 then some (.i 0) else none }

/-- A tracked list of three processes in start order. -/
def procsFiveW : List (String × ℕ) := [("a", 0), ("b", 1), ("c", 2)]

/-- Witness for CLAIM C5 at concrete inputs: the two running processes are
signalled in reverse start order and the dead one is not signalled. -/
theorem claim5_witness :
    sigtermIdxs (shutdown_all wFiveW procsFiveW 0).1 = [2, 0]
    ∧ Ev.sigterm 1 "b" ∉ (shutdown_all wFiveW procsFiveW 0).1 := by
  have hconst : ∀ p ∈ procsFiveW,
      (∀ u, wFiveW.pexit p.2 u = none) ∨ (∀ u, (wFiveW.pexit p.2 u).isSome = true) := by
    intro p hp
    simp only [procsFiveW, List.mem_cons, List.not_mem_nil, or_false] at hp
    rcases hp with rfl | rfl | rfl
    · exact Or.inl fun u => rfl
    · exact Or.inr fun u => rfl
    · exact Or.inl fun u => rfl
  have h := claim5_reverse_order_shutdown wFiveW procsFiveW 0 hconst
  exact ⟨h.1.trans (by decide), (h.2.2 ("b", 1) (by decide) (by decide) "b").1⟩

/-! ## Lemmas about the HTTP readiness gate -/

/-- When the first successful probe happens at attempt `j`, still inside the
deadline, the gate returns success immediately at that attempt. -/
theorem wait_http_success (w : World) (url : String) (deadline poll : ℚ)
    (hpoll : 0 ≤ poll) (hintr : ∀ u, w.intr u = false) :
    ∀ (j f : ℕ) (start t : ℚ), j < f →
      (t - start) + (j : ℚ) * poll < deadline →
      (∀ j' : ℕ, j' < j → http_ok w url http_ok_default_timeout (t + (j' : ℚ) * poll) = false) →
      http_ok w url http_ok_default_timeout (t + (j : ℚ) * poll) = true →
      wait_http w url deadline poll f start t = .ok (t + (j : ℚ) * poll) := by
  intro j
  induction j with
  | zero =>
    intro f start t hf hin hbefore hsucc
    match f, hf with
    | f + 1, _ =>
      rw [wait_http]
      rw [if_pos (by push_cast at hin; linarith)]
      rw [hintr t]
      simp only [Bool.false_eq_true, if_false]
      simp only [Nat.cast_zero, zero_mul, add_zero] at hsucc ⊢
      rw [hsucc]
      rfl
  | succ j ih =>
    intro f start t hf hin hbefore hsucc
    match f, hf with
    | f + 1, hf =>
      have hjp : (0 : ℚ) ≤ ((j : ℚ) + 1) * poll :=
        mul_nonneg (by positivity) hpoll
      rw [wait_http]
      rw [if_pos (by push_cast at hin; linarith)]
      rw [hintr t]
      simp only [Bool.false_eq_true, if_false]
      have h0 : http_ok w url http_ok_default_timeout t = false := by
        have := hbefore 0 (by omega)
        simpa using this
      rw [h0]
      simp only [Bool.false_eq_true, if_false]
      have harith : ∀ m : ℕ, t + poll + (m : ℚ) * poll = t + ((m + 1 : ℕ) : ℚ) * poll := by
        intro m; push_cast; ring
      rw [show t + ((j + 1 : ℕ) : ℚ) * poll = t + poll + (j : ℚ) * poll from by push_cast; ring]
      apply ih f start (t + poll) (by omega)
      · push_cast at hin ⊢
        linarith
      · intro j' hj'
        rw [harith j']
        exact hbefore (j' + 1) (by omega)
      · rw [harith j]
        exact hsucc

/-- When no probe ever succeeds and the fuel covers the deadline, the gate
fails with a readiness timeout at a time at least `deadline` past the start
of the wait. -/
theorem wait_http_times_out (w : World) (url : String) (deadline poll : ℚ)
    (hintr : ∀ u, w.intr u = false)
    (hfail : ∀ u, http_ok w url http_ok_default_timeout u = false) :
    ∀ (f : ℕ) (start t : ℚ), deadline ≤ (t - start) + (f : ℚ) * poll →
      ∃ t', wait_http w url deadline poll f start t = .err (.readinessTimeout url) t'
        ∧ deadline ≤ t' - start := by
  intro f
  induction f with
  | zero =>
    intro start t hbound
    rw [wait_http]
    rw [if_neg (by push_cast at hbound; linarith)]
    exact ⟨t, rfl, by push_cast at hbound; linarith⟩
  | succ f ih =>
    intro start t hbound
    by_cases hc : t - start < deadline
    · rw [wait_http]
      rw [if_pos hc]
      rw [hintr t]
      simp only [Bool.false_eq_true, if_false]
      rw [hfail t]
      simp only [Bool.false_eq_true, if_false]
      apply ih start (t + poll)
      push_cast at hbound ⊢
      linarith
    · rw [wait_http]
      rw [if_neg hc]
      exact ⟨t, rfl, by linarith [not_lt.mp hc]⟩

/-- The HTTP wait spec of the counterexample to the per-attempt-timeout
clause: its poll interval is one millisecond. -/
def wsFastPoll : WaitSpec :=
  { kind := "http", target := "http://app/health", deadline_s := 1, poll_s := 1/1000 }

/-- COUNTEREXAMPLE to CLAIM C9 as stated.  The per-attempt timeout that
`_wait_http` uses is the fixed default of `_http_ok` (1.5 seconds),
independent of the wait spec: for the spec `wsFastPoll` (poll interval one
millisecond) it exceeds even one hundred times the poll interval, so it is
not bounded by the order of magnitude of the poll interval. -/
theorem claim9_counterexample :
    ¬ (http_ok_default_timeout ≤ 100 * wsFastPoll.poll_s) := by decide

/-- CLAIM C9 (amended: the per-attempt timeout is the fixed 1.5-second
default of `_http_ok`, not a bound tied to the poll interval).  The gate
treats exactly the statuses in `[200, 400)` as success (any exception counts
as failure); it returns success immediately at the first successful probe,
with probes spaced `poll_s` apart; and when no probe ever succeeds it fails
with a readiness timeout once the cumulative elapsed time reaches the
deadline. -/
theorem claim9_http_gate (w : World) (url : String) (deadline poll t0 : ℚ) (fuel : ℕ) :
    (∀ u, http_ok w url http_ok_default_timeout u = true ↔
        ∃ s, w.httpResp url u = some s ∧ 200 ≤ s ∧ s < 400)
    ∧ (∀ j : ℕ, 0 ≤ poll → (∀ u, w.intr u = false) → j < fuel →
        (j : ℚ) * poll < deadline →
        (∀ j' : ℕ, j' < j →
          http_ok w url http_ok_default_timeout (t0 + (j' : ℚ) * poll) = false) →
        http_ok w url http_ok_default_timeout (t0 + (j : ℚ) * poll) = true →
        wait_http w url deadline poll fuel t0 t0 = .ok (t0 + (j : ℚ) * poll))
    ∧ ((∀ u, w.intr u = false) →
        (∀ u, http_ok w url http_ok_default_timeout u = false) →
        deadline ≤ (fuel : ℚ) * poll →
        ∃ t', wait_http w url deadline poll fuel t0 t0 = .err (.readinessTimeout url) t'
          ∧ deadline ≤ t' - t0) := by
  refine ⟨?_, ?_, ?_⟩
  · intro u
    rw [http_ok]
    cases hresp : w.httpResp url u with
    | none => simp
    | some s =>
      simp only [Bool.and_eq_true, decide_eq_true_eq]
      constructor
      · intro ⟨h1, h2⟩; exact ⟨s, rfl, h1, h2⟩
      · intro ⟨s', hs', h1, h2⟩
        rw [Option.some_inj] at hs'
        rw [← hs'] at h1 h2
        exact ⟨h1, h2⟩
  · intro j hpoll hintr hf hin hbefore hsucc
    apply wait_http_success w url deadline poll hpoll hintr j fuel t0 t0 hf _ hbefore hsucc
    rw [sub_self]
    linarith
  · intro hintr hfail hbound
    apply wait_http_times_out w url deadline poll hintr hfail fuel t0 t0
    rw [sub_self]
    linarith

/-- A world whose health endpoint returns 503 before time one half and 200
from then on. -/
def wHttpOkW : World :=
  { osEnv := [], pexit := fun _ _ => none, intr := fun _ => false,
    parseFloat := fun _ => 0,
    httpResp := fun _ u => if (1/2 : ℚ) ≤ u then some 200 else some 503 }

/-- A world whose health endpoint always raises. -/
def wHttpFailW : World :=
  { osEnv := [], pexit := fun _ _ => none, intr := fun _ => false,
    parseFloat := fun _ => 0, httpResp := fun _ _ => none }

/-- Witness for CLAIM C9 (amended) at concrete inputs: with the default poll
interval the gate succeeds at the third probe once the endpoint turns 200,
and with an endpoint that never answers it times out at the deadline. -/
theorem claim9_witness :
    wait_http wHttpOkW "u" 30 (1/4) 200 0 0 = .ok (0 + (2 : ℚ) * (1/4))
    ∧ wait_http wHttpFailW "u" 30 (1/4) 200 0 0 = .err (.readinessTimeout "u") 30 :=
  ⟨(claim9_http_gate wHttpOkW "u" 30 (1/4) 0 200).2.1 2 (by decide) (fun u => rfl)
      (by decide) (by decide) (by decide) (by decide),
   by decide⟩

/-! ## Lemmas about the startup phase -/

/-- Launch records distribute over trace concatenation. -/
theorem launchesOf_append (a b : List Ev) :
    launchesOf (a ++ b) = launchesOf a ++ launchesOf b :=
  List.filterMap_append a b _

/-- Tracked entries of a concatenated step list. -/
theorem trackedFrom_append :
    ∀ (l1 l2 : List ProcSpec) (i : ℕ),
      trackedFrom i (l1 ++ l2) = trackedFrom i l1 ++ trackedFrom (i + l1.length) l2 := by
  intro l1
  induction l1 with
  | nil => intro l2 i; simp [trackedFrom]
  | cons s l1 ih =>
    intro l2 i
    rw [List.cons_append, trackedFrom, trackedFrom, ih, List.cons_append]
    have : i + 1 + l1.length = i + (s :: l1).length := by simp [List.length_cons]; omega
    rw [this]

/-- Tracked entries carry launch indices inside the launch window. -/
theorem trackedFrom_idx :
    ∀ (l : List ProcSpec) (i : ℕ) (p : String × ℕ),
      p ∈ trackedFrom i l → i ≤ p.2 ∧ p.2 < i + l.length := by
  intro l
  induction l with
  | nil => intro i p hp; exact absurd hp (List.not_mem_nil p)
  | cons s l ih =>
    intro i p hp
    rw [trackedFrom, List.mem_cons] at hp
    rcases hp with rfl | hp
    · simp
    · have := ih (i + 1) p hp
      constructor
      · omega
      · simp only [List.length_cons]
        omega

/-- Unfolding equation of the startup loop on an empty step list. -/
theorem startupAux_nil (w : World) (fuel i : ℕ) (procs : List (String × ℕ))
    (t : ℚ) (evs : List Ev) :
    startupAux w fuel [] i procs t evs = .ok procs t evs := rfl

/-- Unfolding equation of the startup loop on a step without a wait spec:
launch, track, and continue — no poll of the new process happens. -/
theorem startupAux_cons_nowait (w : World) (fuel : ℕ) (s : ProcSpec)
    (rest : List ProcSpec) (i : ℕ) (procs : List (String × ℕ)) (t : ℚ)
    (evs : List Ev) (hw : s.wait = none) :
    startupAux w fuel (s :: rest) i procs t evs
      = startupAux w fuel rest (i + 1) (procs ++ [(s.name, i)]) t
          (evs ++ [Ev.launch i s.name]) := by
    rw [startupAux, hw]

/-- Unfolding equation of the startup loop when the freshly launched step has
a wait spec and its process is already exited at the post-launch poll: the
loop raises the early-exit error without entering the gate. -/
theorem startupAux_cons_early (w : World) (fuel : ℕ) (s : ProcSpec)
    (ws : WaitSpec) (rest : List ProcSpec) (i : ℕ) (procs : List (String × ℕ))
    (t : ℚ) (evs : List Ev) (c : PyVal)
    (hw : s.wait = some ws) (hp : w.pexit i t = some c) :
    startupAux w fuel (s :: rest) i procs t evs
      = .err (.earlyExit s.name c) (procs ++ [(s.name, i)]) t
          (evs ++ [Ev.launch i s.name]) := by
    rw [startupAux, hw, hp]

/-- Unfolding equation of the startup loop when the freshly launched step has
a wait spec and its process is still running at the post-launch poll: the
gate is applied and its outcome dispatched. -/
theorem startupAux_cons_wait (w : World) (fuel : ℕ) (s : ProcSpec)
    (ws : WaitSpec) (rest : List ProcSpec) (i : ℕ) (procs : List (String × ℕ))
    (t : ℚ) (evs : List Ev)
    (hw : s.wait = some ws) (hp : w.pexit i t = none) :
    startupAux w fuel (s :: rest) i procs t evs
      = match apply_wait w ws fuel t with
        | .ok tg => startupAux w fuel rest (i + 1) (procs ++ [(s.name, i)]) tg
            (evs ++ [Ev.launch i s.name] ++ [Ev.gate i s.name])
        | .intr tg => .intr (procs ++ [(s.name, i)]) tg
            (evs ++ [Ev.launch i s.name] ++ [Ev.gate i s.name])
        | .err e tg => .err e (procs ++ [(s.name, i)]) tg
            (evs ++ [Ev.launch i s.name] ++ [Ev.gate i s.name])
        | .fuelOut tg => .fuelOut (procs ++ [(s.name, i)]) tg
            (evs ++ [Ev.launch i s.name] ++ [Ev.gate i s.name]) := by
    rw [startupAux, hw, hp]

/-- Unfolding equation of the startup loop when the gate succeeds. -/
theorem startupAux_cons_gate_ok (w : World) (fuel : ℕ) (s : ProcSpec)
    (ws : WaitSpec) (rest : List ProcSpec) (i : ℕ) (procs : List (String × ℕ))
    (t tg : ℚ) (evs : List Ev)
    (hw : s.wait = some ws) (hp : w.pexit i t = none)
    (hg : apply_wait w ws fuel t = .ok tg) :
    startupAux w fuel (s :: rest) i procs t evs
      = startupAux w fuel rest (i + 1) (procs ++ [(s.name, i)]) tg
          (evs ++ [Ev.launch i s.name] ++ [Ev.gate i s.name]) := by
    rw [startupAux_cons_wait w fuel s ws rest i procs t evs hw hp, hg]

/-- Unfolding equation of the startup loop when the gate is interrupted. -/
theorem startupAux_cons_gate_intr (w : World) (fuel : ℕ) (s : ProcSpec)
    (ws : WaitSpec) (rest : List ProcSpec) (i : ℕ) (procs : List (String × ℕ))
    (t tg : ℚ) (evs : List Ev)
    (hw : s.wait = some ws) (hp : w.pexit i t = none)
    (hg : apply_wait w ws fuel t = .intr tg) :
    startupAux w fuel (s :: rest) i procs t evs
      = .intr (procs ++ [(s.name, i)]) tg
          (evs ++ [Ev.launch i s.name] ++ [Ev.gate i s.name]) := by
    rw [startupAux_cons_wait w fuel s ws rest i procs t evs hw hp, hg]

/-- Unfolding equation of the startup loop when the gate raises. -/
theorem startupAux_cons_gate_err (w : World) (fuel : ℕ) (s : ProcSpec)
    (ws : WaitSpec) (rest : List ProcSpec) (i : ℕ) (procs : List (String × ℕ))
    (t tg : ℚ) (evs : List Ev) (e : PyErr)
    (hw : s.wait = some ws) (hp : w.pexit i t = none)
    (hg : apply_wait w ws fuel t = .err e tg) :
    startupAux w fuel (s :: rest) i procs t evs
      = .err e (procs ++ [(s.name, i)]) tg
          (evs ++ [Ev.launch i s.name] ++ [Ev.gate i s.name]) := by
    rw [startupAux_cons_wait w fuel s ws rest i procs t evs hw hp, hg]

/-- Unfolding equation of the startup loop when the gate runs out of model
fuel. -/
theorem startupAux_cons_gate_fuelOut (w : World) (fuel : ℕ) (s : ProcSpec)
    (ws : WaitSpec) (rest : List ProcSpec) (i : ℕ) (procs : List (String × ℕ))
    (t tg : ℚ) (evs : List Ev)
    (hw : s.wait = some ws) (hp : w.pexit i t = none)
    (hg : apply_wait w ws fuel t = .fuelOut tg) :
    startupAux w fuel (s :: rest) i procs t evs
      = .fuelOut (procs ++ [(s.name, i)]) tg
          (evs ++ [Ev.launch i s.name] ++ [Ev.gate i s.name]) := by
    rw [startupAux_cons_wait w fuel s ws rest i procs t evs hw hp, hg]

/-- Running the startup loop over a concatenation runs it over the first
part and, if that part completes, continues over the second part with the
launch index advanced. -/
theorem startupAux_append (w : World) (fuel : ℕ) :
    ∀ (l1 l2 : List ProcSpec) (i : ℕ) (procs : List (String × ℕ)) (t : ℚ) (evs : List Ev),
      startupAux w fuel (l1 ++ l2) i procs t evs =
        match startupAux w fuel l1 i procs t evs with
        | .ok procs' t' evs' => startupAux w fuel l2 (i + l1.length) procs' t' evs'
        | .intr procs' t' evs' => .intr procs' t' evs'
        | .err e procs' t' evs' => .err e procs' t' evs'
        | .fuelOut procs' t' evs' => .fuelOut procs' t' evs' := by
  intro l1
  induction l1 with
  | nil =>
    intro l2 i procs t evs
    rw [List.nil_append, startupAux_nil]
    simp
  | cons s l1 ih =>
    intro l2 i procs t evs
    rw [List.cons_append]
    have hidx : i + 1 + l1.length = i + (s :: l1).length := by
      simp only [List.length_cons]; omega
    cases hw : s.wait with
    | none =>
      rw [startupAux_cons_nowait w fuel s (l1 ++ l2) i procs t evs hw,
        startupAux_cons_nowait w fuel s l1 i procs t evs hw, ih, hidx]
    | some ws =>
      cases hp : w.pexit i t with
      | some c =>
        rw [startupAux_cons_early w fuel s ws (l1 ++ l2) i procs t evs c hw hp,
          startupAux_cons_early w fuel s ws l1 i procs t evs c hw hp]
      | none =>
        cases hg : apply_wait w ws fuel t with
        | ok tg =>
          rw [startupAux_cons_gate_ok w fuel s ws (l1 ++ l2) i procs t tg evs hw hp hg,
            startupAux_cons_gate_ok w fuel s ws l1 i procs t tg evs hw hp hg, ih, hidx]
        | intr tg =>
          rw [startupAux_cons_gate_intr w fuel s ws (l1 ++ l2) i procs t tg evs hw hp hg,
            startupAux_cons_gate_intr w fuel s ws l1 i procs t tg evs hw hp hg]
        | err e tg =>
          rw [startupAux_cons_gate_err w fuel s ws (l1 ++ l2) i procs t tg evs e hw hp hg,
            startupAux_cons_gate_err w fuel s ws l1 i procs t tg evs e hw hp hg]
        | fuelOut tg =>
          rw [startupAux_cons_gate_fuelOut w fuel s ws (l1 ++ l2) i procs t tg evs hw hp hg,
            startupAux_cons_gate_fuelOut w fuel s ws l1 i procs t tg evs hw hp hg]

/-- A successful startup run appends exactly the tracked entries of its step
list, and its new events are launch/gate events for exactly those steps (in
particular the launch records are exactly the launched steps, in order, and
every new event's index lies inside the launch window). -/
theorem startupAux_ok_spec (w : World) (fuel : ℕ) :
    ∀ (l : List ProcSpec) (i : ℕ) (procs : List (String × ℕ)) (t : ℚ) (evs : List Ev)
      (procs' : List (String × ℕ)) (t' : ℚ) (evs' : List Ev),
      startupAux w fuel l i procs t evs = .ok procs' t' evs' →
      procs' = procs ++ trackedFrom i l
      ∧ ∃ E, evs' = evs ++ E
          ∧ launchesOf E = (trackedFrom i l).map (fun p => (p.2, p.1))
          ∧ ∀ e ∈ E, i ≤ evIdx e ∧ evIdx e < i + l.length := by
  intro l
  induction l with
  | nil =>
    intro i procs t evs procs' t' evs' h
    rw [startupAux_nil] at h
    cases h
    refine ⟨by simp [trackedFrom], [], by simp, by simp [trackedFrom, launchesOf], ?_⟩
    intro e he
    exact absurd he (List.not_mem_nil e)
  | cons s l ih =>
    intro i procs t evs procs' t' evs' h
    cases hw : s.wait with
    | none =>
      rw [startupAux_cons_nowait w fuel s l i procs t evs hw] at h
      obtain ⟨h1, E, h2, h3, h4⟩ := ih (i + 1) _ _ _ _ _ _ h
      refine ⟨?_, Ev.launch i s.name :: E, ?_, ?_, ?_⟩
      · rw [h1, trackedFrom, List.append_assoc, List.singleton_append]
      · rw [h2, List.append_assoc, List.singleton_append]
      · rw [trackedFrom, List.map_cons]
        exact congrArg (List.cons (i, s.name)) h3
      · intro e he
        rw [List.mem_cons] at he
        rcases he with rfl | he
        · simp [evIdx]
        · have := h4 e he
          simp only [List.length_cons]
          omega
    | some ws =>
      cases hp : w.pexit i t with
      | some c =>
        rw [startupAux_cons_early w fuel s ws l i procs t evs c hw hp] at h
        cases h
      | none =>
        cases hg : apply_wait w ws fuel t with
        | ok tg =>
          rw [startupAux_cons_gate_ok w fuel s ws l i procs t tg evs hw hp hg] at h
          obtain ⟨h1, E, h2, h3, h4⟩ := ih (i + 1) _ _ _ _ _ _ h
          refine ⟨?_, Ev.launch i s.name :: Ev.gate i s.name :: E, ?_, ?_, ?_⟩
          · rw [h1, trackedFrom, List.append_assoc, List.singleton_append]
          · rw [h2]
            simp [List.append_assoc]
          · rw [trackedFrom, List.map_cons]
            exact congrArg (List.cons (i, s.name)) h3
          · intro e he
            rw [List.mem_cons, List.mem_cons] at he
            rcases he with rfl | rfl | he
            · simp [evIdx]
            · simp [evIdx]
            · have := h4 e he
              simp only [List.length_cons]
              omega
        | intr tg =>
          rw [startupAux_cons_gate_intr w fuel s ws l i procs t tg evs hw hp hg] at h
          cases h
        | err e tg =>
          rw [startupAux_cons_gate_err w fuel s ws l i procs t tg evs e hw hp hg] at h
          cases h
        | fuelOut tg =>
          rw [startupAux_cons_gate_fuelOut w fuel s ws l i procs t tg evs hw hp hg] at h
          cases h

/-! ## Lemmas about the monitoring loop -/

/-- The first tracked process reported exited by a scan is the first listed
dead one: processes listed before it and still running are skipped. -/
theorem pollFirst_first (w : World) (t : ℚ) (nm : String) (j : ℕ) (c : PyVal) :
    ∀ (l1 l2 : List (String × ℕ)),
      (∀ q ∈ l1, w.pexit q.2 t = none) →
      w.pexit j t = some c →
      pollFirst w (l1 ++ (nm, j) :: l2) t = some (nm, j, c) := by
  intro l1
  induction l1 with
  | nil =>
    intro l2 _ hj
    rw [List.nil_append, pollFirst, hj]
  | cons q l1 ih =>
    intro l2 halive hj
    rw [List.cons_append, pollFirst, halive q (List.mem_cons_self q l1)]
    exact ih l2 (fun r hr => halive r (List.mem_cons_of_mem q hr)) hj

/-- If the first `m` scans of the monitoring loop see every process running
and the scan at iteration `m` reports process `j` exited, the loop stops at
iteration `m` with that process (given fuel and no interrupt). -/
theorem monitorLoop_finds (w : World) (procs : List (String × ℕ)) (nm : String)
    (j : ℕ) (c : PyVal) (hintr : ∀ u, w.intr u = false) :
    ∀ (m fuel : ℕ) (t : ℚ), m < fuel →
      (∀ m' : ℕ, m' < m → pollFirst w procs (t + (m' : ℚ) * (1/5)) = none) →
      pollFirst w procs (t + (m : ℚ) * (1/5)) = some (nm, j, c) →
      monitorLoop w procs fuel t
        = .exited j nm c procs (t + (m : ℚ) * (1/5)) [Ev.exitLog j nm c] := by
  intro m
  induction m with
  | zero =>
    intro fuel t hf hbefore hfound
    match fuel, hf with
    | fuel + 1, _ =>
      rw [monitorLoop, hintr t]
      simp only [Bool.false_eq_true, if_false]
      simp only [Nat.cast_zero, zero_mul, add_zero] at hfound ⊢
      rw [hfound]
  | succ m ih =>
    intro fuel t hf hbefore hfound
    match fuel, hf with
    | fuel + 1, hf =>
      rw [monitorLoop, hintr t]
      simp only [Bool.false_eq_true, if_false]
      have h0 : pollFirst w procs t = none := by
        have := hbefore 0 (by omega)
        simpa using this
      rw [h0]
      have harith : ∀ m' : ℕ, t + 1/5 + (m' : ℚ) * (1/5) = t + ((m' + 1 : ℕ) : ℚ) * (1/5) := by
        intro m'; push_cast; ring
      rw [show t + ((m + 1 : ℕ) : ℚ) * (1/5) = t + 1/5 + (m : ℚ) * (1/5) from by push_cast; ring]
      apply ih fuel (t + 1/5) (by omega)
      · intro m' hm'
        rw [harith m']
        exact hbefore (m' + 1) (by omega)
      · rw [harith m]
        exact hfound

/-! ## Lemmas about environment construction -/

/-- Lookup in the empty association list. -/
theorem dlookup_nil (k : String) : dlookup [] k = none := rfl

/-- Unfolding of lookup over a cons cell. -/
theorem dlookup_cons (p : String × String) (e : List (String × String)) (k : String) :
    dlookup (p :: e) k = if p.1 = k then some p.2 else dlookup e k := by
  by_cases h : p.1 = k
  · simp [dlookup, List.find?_cons, h]
  · simp [dlookup, List.find?_cons, h]

/-- Dictionary assignment rebinds exactly the assigned key. -/
theorem dlookup_dset :
    ∀ (e : List (String × String)) (k v k' : String),
      dlookup (dset e k v) k' = if k' = k then some v else dlookup e k' := by
  intro e
  induction e with
  | nil =>
    intro k v k'
    rw [dset, dlookup_cons, dlookup_nil]
    by_cases h : k' = k
    · rw [if_pos (show (k, v).1 = k' from h.symm), if_pos h]
    · rw [if_neg (show ¬ (k, v).1 = k' from fun hh => h hh.symm), if_neg h]
  | cons p e ih =>
    intro k v k'
    rw [dset]
    by_cases hpk : p.1 = k
    · rw [if_pos hpk, dlookup_cons, dlookup_cons]
      by_cases hk' : k' = k
      · rw [if_pos (show (k, v).1 = k' from hk'.symm), if_pos hk']
      · rw [if_neg (show ¬ (k, v).1 = k' from fun hh => hk' hh.symm), if_neg hk',
          if_neg (show ¬ p.1 = k' from fun hh => hk' (hh.symm.trans hpk))]
    · rw [if_neg hpk, dlookup_cons, dlookup_cons]
      by_cases hpk' : p.1 = k'
      · rw [if_pos hpk', if_neg (show ¬ k' = k from fun hh => hpk (hpk'.trans hh)),
          if_pos hpk']
      · rw [if_neg hpk', if_neg hpk', ih]

/-- Lookup misses a list none of whose keys is the looked-up key. -/
theorem dlookup_eq_none (e : List (String × String)) (k : String)
    (h : ∀ q ∈ e, q.1 ≠ k) : dlookup e k = none := by
  rw [dlookup, List.find?_eq_none.mpr]
  · rfl
  · intro q hq
    simpa using h q hq

/-- Dictionary update makes the lookup prefer the updated bindings (for an
update whose keys are unique, as for a Python `dict`). -/
theorem dlookup_dupdate :
    ∀ (m e : List (String × String)) (k : String),
      (m.map Prod.fst).Nodup →
      dlookup (dupdate e m) k
        = match dlookup m k with
          | some v => some v
          | none => dlookup e k := by
  intro m
  induction m with
  | nil =>
    intro e k _
    rw [dlookup_nil]
    rfl
  | cons p m ih =>
    intro e k hnd
    rw [List.map_cons, List.nodup_cons] at hnd
    have hupd : dupdate e (p :: m) = dupdate (dset e p.1 p.2) m := rfl
    rw [hupd, ih (dset e p.1 p.2) k hnd.2, dlookup_cons]
    by_cases hpk : p.1 = k
    · have hmk : dlookup m k = none := by
        apply dlookup_eq_none
        intro q hq hqk
        exact hnd.1 (by rw [← hpk] at hqk; exact hqk ▸ List.mem_map_of_mem Prod.fst hq)
      rw [hmk, if_pos hpk]
      rw [dlookup_dset, if_pos hpk.symm]
    · cases hmv : dlookup m k with
      | some v => rw [if_neg hpk]
      | none =>
        rw [if_neg hpk]
        rw [dlookup_dset, if_neg (fun hh => hpk hh.symm)]

/-! ## Dispatch lemmas for the readiness gate and supervisor plumbing -/

/-- Gate dispatch for the sleep kind. -/
theorem apply_wait_sleep (w : World) (ws : WaitSpec) (fuel : ℕ) (t : ℚ)
    (hk : ws.kind = "sleep") :
    apply_wait w ws fuel t = wait_sleep w (w.parseFloat ws.target) t := by
  rw [apply_wait, if_pos hk]

/-- Gate dispatch for the http kind. -/
theorem apply_wait_http (w : World) (ws : WaitSpec) (fuel : ℕ) (t : ℚ)
    (hk : ws.kind = "http") :
    apply_wait w ws fuel t
      = wait_http w ws.target ws.deadline_s ws.poll_s fuel t t := by
  rw [apply_wait, if_neg (by rw [hk]; decide), if_pos hk]

/-- Gate dispatch for any unrecognised kind: the configuration error is
raised only here, at gate-application time. -/
theorem apply_wait_unknown (w : World) (ws : WaitSpec) (fuel : ℕ) (t : ℚ)
    (h1 : ws.kind ≠ "sleep") (h2 : ws.kind ≠ "http") :
    apply_wait w ws fuel t = .err (.unknownWaitKind ws.kind) t := by
  rw [apply_wait, if_neg h1, if_neg h2]

/-- The shutdown cascade emits only termination signals: no launch, gate or
exit-log event. -/
theorem shutdownList_only_signals (w : World) :
    ∀ (l : List (String × ℕ)) (t : ℚ) (e : Ev), e ∈ (shutdownList w l t).1 →
      (∃ i n, e = Ev.sigterm i n) ∨ (∃ i n, e = Ev.sigkill i n) := by
  intro l
  induction l with
  | nil => intro t e he; exact absurd he (List.not_mem_nil e)
  | cons p rest ih =>
    intro t e he
    rw [shutdownList_cons] at he
    rw [List.mem_append] at he
    rcases he with he | he
    · rcases terminate_process_shape w p.2 p.1 6 t with hs | hs | hs <;> rw [hs] at he
      · exact absurd he (List.not_mem_nil e)
      · rw [List.mem_singleton] at he
        exact Or.inl ⟨p.2, p.1, he⟩
      · rw [List.mem_cons, List.mem_singleton] at he
        rcases he with rfl | rfl
        · exact Or.inl ⟨p.2, p.1, rfl⟩
        · exact Or.inr ⟨p.2, p.1, rfl⟩
    · exact ih _ e he

/-- The shutdown cascade records no launches. -/
theorem shutdownList_no_launches (w : World) (l : List (String × ℕ)) (t : ℚ) :
    launchesOf (shutdownList w l t).1 = [] := by
  rw [launchesOf, List.filterMap_eq_nil_iff]
  intro e he
  rcases shutdownList_only_signals w l t e he with ⟨i, n, rfl⟩ | ⟨i, n, rfl⟩ <;> rfl

/-- Dispatch of `run_pipeline` when a tracked process exits during
monitoring: cascade on every other tracked process, return the exit code. -/
theorem run_pipeline_exited (w : World) (pl : PipelineSpec) (fuel : ℕ)
    (i : ℕ) (n : String) (c : PyVal) (procs : List (String × ℕ)) (t : ℚ) (evs : List Ev)
    (h : tryBody w pl fuel = .exited i n c procs t evs) :
    run_pipeline w pl fuel
      = some (pyValToInt c,
          evs ++ (shutdown_all w (procs.filter (fun p => p.2 ≠ i)) t).1) := by
  rw [run_pipeline, h]

/-- Dispatch of `run_pipeline` on `KeyboardInterrupt`: cascade on all tracked
processes, return 0. -/
theorem run_pipeline_intr (w : World) (pl : PipelineSpec) (fuel : ℕ)
    (procs : List (String × ℕ)) (t : ℚ) (evs : List Ev)
    (h : tryBody w pl fuel = .intr procs t evs) :
    run_pipeline w pl fuel = some (0, evs ++ (shutdown_all w procs t).1) := by
  rw [run_pipeline, h]

/-- Dispatch of `run_pipeline` on any other exception: cascade on all tracked
processes, return 1. -/
theorem run_pipeline_err (w : World) (pl : PipelineSpec) (fuel : ℕ) (e : PyErr)
    (procs : List (String × ℕ)) (t : ℚ) (evs : List Ev)
    (h : tryBody w pl fuel = .err e procs t evs) :
    run_pipeline w pl fuel = some (1, evs ++ (shutdown_all w procs t).1) := by
  rw [run_pipeline, h]

/-- The try-block when startup raises. -/
theorem tryBody_startup_err (w : World) (pl : PipelineSpec) (fuel : ℕ) (e : PyErr)
    (procs : List (String × ℕ)) (t : ℚ) (evs : List Ev)
    (h : startupAux w fuel pl.steps 0 [] 0 [] = .err e procs t evs) :
    tryBody w pl fuel = .err e procs t evs := by
  rw [tryBody, h]

/-- The try-block once startup completes: run the monitoring loop and
prepend the startup events. -/
theorem tryBody_startup_ok (w : World) (pl : PipelineSpec) (fuel : ℕ)
    (procs : List (String × ℕ)) (t : ℚ) (evs : List Ev)
    (h : startupAux w fuel pl.steps 0 [] 0 [] = .ok procs t evs) :
    tryBody w pl fuel
      = match monitorLoop w procs fuel t with
        | .exited i n c procs' t' evs' => .exited i n c procs' t' (evs ++ evs')
        | .intr procs' t' evs' => .intr procs' t' (evs ++ evs')
        | .err e procs' t' evs' => .err e procs' t' (evs ++ evs')
        | .fuelOut procs' t' evs' => .fuelOut procs' t' (evs ++ evs') := by
  rw [tryBody, h]

/-- The try-block when startup completes and the monitoring loop later
reports an exited process. -/
theorem tryBody_monitor_exited (w : World) (pl : PipelineSpec) (fuel : ℕ)
    (procs : List (String × ℕ)) (t : ℚ) (evs : List Ev)
    (i : ℕ) (n : String) (c : PyVal) (procs' : List (String × ℕ)) (t' : ℚ) (evs' : List Ev)
    (h : startupAux w fuel pl.steps 0 [] 0 [] = .ok procs t evs)
    (hm : monitorLoop w procs fuel t = .exited i n c procs' t' evs') :
    tryBody w pl fuel = .exited i n c procs' t' (evs ++ evs') := by
  rw [tryBody_startup_ok w pl fuel procs t evs h, hm]

/-- The try-block when startup completes and the monitoring loop is
interrupted. -/
theorem tryBody_monitor_intr (w : World) (pl : PipelineSpec) (fuel : ℕ)
    (procs : List (String × ℕ)) (t : ℚ) (evs : List Ev)
    (procs' : List (String × ℕ)) (t' : ℚ) (evs' : List Ev)
    (h : startupAux w fuel pl.steps 0 [] 0 [] = .ok procs t evs)
    (hm : monitorLoop w procs fuel t = .intr procs' t' evs') :
    tryBody w pl fuel = .intr procs' t' (evs ++ evs') := by
  rw [tryBody_startup_ok w pl fuel procs t evs h, hm]

/-- The try-block when startup is interrupted. -/
theorem tryBody_startup_intr (w : World) (pl : PipelineSpec) (fuel : ℕ)
    (procs : List (String × ℕ)) (t : ℚ) (evs : List Ev)
    (h : startupAux w fuel pl.steps 0 [] 0 [] = .intr procs t evs) :
    tryBody w pl fuel = .intr procs t evs := by
  rw [tryBody, h]

/-- If the first `m` iterations of the monitoring loop see no interrupt and
every process running, and an interrupt is pending at iteration `m`, the
loop raises `KeyboardInterrupt` there. -/
theorem monitorLoop_intr (w : World) (procs : List (String × ℕ)) :
    ∀ (m fuel : ℕ) (t : ℚ), m < fuel →
      (∀ m' : ℕ, m' < m → w.intr (t + (m' : ℚ) * (1/5)) = false
        ∧ pollFirst w procs (t + (m' : ℚ) * (1/5)) = none) →
      w.intr (t + (m : ℚ) * (1/5)) = true →
      monitorLoop w procs fuel t = .intr procs (t + (m : ℚ) * (1/5)) [] := by
  intro m
  induction m with
  | zero =>
    intro fuel t hf hbefore hm
    match fuel, hf with
    | fuel + 1, _ =>
      rw [monitorLoop]
      simp only [Nat.cast_zero, zero_mul, add_zero] at hm ⊢
      rw [hm]
      rfl
  | succ m ih =>
    intro fuel t hf hbefore hm
    match fuel, hf with
    | fuel + 1, hf =>
      obtain ⟨hi0, hp0⟩ := hbefore 0 (by omega)
      simp only [Nat.cast_zero, zero_mul, add_zero] at hi0 hp0
      rw [monitorLoop, hi0]
      simp only [Bool.false_eq_true, if_false]
      rw [hp0]
      have harith : ∀ m' : ℕ, t + 1/5 + (m' : ℚ) * (1/5) = t + ((m' + 1 : ℕ) : ℚ) * (1/5) := by
        intro m'; push_cast; ring
      rw [show t + ((m + 1 : ℕ) : ℚ) * (1/5) = t + 1/5 + (m : ℚ) * (1/5) from by push_cast; ring]
      apply ih fuel (t + 1/5) (by omega)
      · intro m' hm'
        rw [harith m']
        exact hbefore (m' + 1) (by omega)
      · rw [harith m]
        exact hm

/-! ## Claim C1: monitoring propagation -/

/-- CLAIM C1.  Once every step of the pipeline has started and passed its
gate, if the monitoring loop at some iteration `m` first observes a tracked
process `j` exited with code `c` (all earlier scans saw every process
running), then `run_pipeline` invokes the shutdown cascade on exactly the
other tracked processes (those with launch index different from `j`) and
returns `int(c)` — where a non-integer exit value maps to 1, as the final
conjuncts pin down. -/
theorem claim1_monitor_exit_propagation (w : World) (pl : PipelineSpec) (fuel m : ℕ)
    (procs : List (String × ℕ)) (t : ℚ) (evs : List Ev) (nm : String) (j : ℕ) (c : PyVal)
    (hstart : startupAux w fuel pl.steps 0 [] 0 [] = .ok procs t evs)
    (hintr : ∀ u, w.intr u = false)
    (hbefore : ∀ m' : ℕ, m' < m → pollFirst w procs (t + (m' : ℚ) * (1/5)) = none)
    (hfound : pollFirst w procs (t + (m : ℚ) * (1/5)) = some (nm, j, c))
    (hfuel : m < fuel) :
    run_pipeline w pl fuel
      = some (pyValToInt c,
          evs ++ [Ev.exitLog j nm c]
            ++ (shutdown_all w (procs.filter (fun p => p.2 ≠ j))
                  (t + (m : ℚ) * (1/5))).1)
    ∧ (∀ z : Int, pyValToInt (.i z) = z) ∧ pyValToInt .other = 1 := by
  refine ⟨?_, fun z => rfl, rfl⟩
  have hm := monitorLoop_finds w procs nm j c hintr m fuel t hfuel hbefore hfound
  have hb := tryBody_monitor_exited w pl fuel procs t evs j nm c procs
    (t + (m : ℚ) * (1/5)) [Ev.exitLog j nm c] hstart hm
  rw [run_pipeline_exited w pl fuel j nm c procs (t + (m : ℚ) * (1/5))
    (evs ++ [Ev.exitLog j nm c]) hb]

/-- The world of the C1 witness: process 1 exits with code 7 at time 1/5
(the monitoring loop's second scan), process 0 exits on its own a tenth of a
second after the cascade signals it. -/
def wExitW : World :=
  { osEnv := [], httpResp := fun _ _ => none, intr := fun _ => false,
    parseFloat := fun _ => 0,
    pexit := fun i t =>
      if i = 1 then (if (1/5 : ℚ) ≤ t then some (.i 7) else none)
      else (if (3/10 : ℚ) ≤ t then some (.i 0) else none) }

/-- A two-step pipeline with no readiness gates. -/
def plTwoW : PipelineSpec :=
  { name := "p2",
    steps := [{ name := "a", cmd := ["x"] }, { name := "b", cmd := ["y"] }] }

/-- Witness for CLAIM C1 at concrete inputs. -/
theorem claim1_witness :
    run_pipeline wExitW plTwoW 3
      = some (pyValToInt (.i 7),
          [Ev.launch 0 "a", Ev.launch 1 "b"] ++ [Ev.exitLog 1 "b" (.i 7)]
            ++ (shutdown_all wExitW
                  ([("a", 0), ("b", 1)].filter (fun p => p.2 ≠ 1))
                  (0 + (1 : ℚ) * (1/5))).1)
    ∧ run_pipeline wExitW plTwoW 3
      = some (7, [Ev.launch 0 "a", Ev.launch 1 "b", Ev.exitLog 1 "b" (.i 7),
          Ev.sigterm 0 "a"]) :=
  ⟨(claim1_monitor_exit_propagation wExitW plTwoW 3 1 [("a", 0), ("b", 1)] 0
      [Ev.launch 0 "a", Ev.launch 1 "b"] "b" 1 (.i 7)
      (by decide) (fun u => rfl) (by decide) (by decide) (by decide)).1,
   by decide⟩

/-! ## Claim C4: interrupt yields exit code 0 -/

/-- CLAIM C4.  Whenever the try-block of `run_pipeline` is interrupted — at
whatever point the interrupt was delivered (startup, a readiness wait, or
the monitoring loop) — the supervisor runs the shutdown cascade on all
processes tracked at that moment and returns exit code 0, never a non-zero
code; in particular an interrupt first pending at monitoring iteration `m`,
with every child still running, produces exactly this outcome. -/
theorem claim4_interrupt_returns_zero (w : World) (pl : PipelineSpec) (fuel : ℕ) :
    (∀ procs t evs, tryBody w pl fuel = .intr procs t evs →
      run_pipeline w pl fuel = some (0, evs ++ (shutdown_all w procs t).1))
    ∧ (∀ procs t evs (m : ℕ),
        startupAux w fuel pl.steps 0 [] 0 [] = .ok procs t evs →
        m < fuel →
        (∀ m' : ℕ, m' < m → w.intr (t + (m' : ℚ) * (1/5)) = false
          ∧ pollFirst w procs (t + (m' : ℚ) * (1/5)) = none) →
        w.intr (t + (m : ℚ) * (1/5)) = true →
        run_pipeline w pl fuel
          = some (0, evs ++ (shutdown_all w procs (t + (m : ℚ) * (1/5))).1)) := by
  constructor
  · intro procs t evs h
    exact run_pipeline_intr w pl fuel procs t evs h
  · intro procs t evs m hstart hfuel hbefore hm
    have hml := monitorLoop_intr w procs m fuel t hfuel hbefore hm
    have hb := tryBody_monitor_intr w pl fuel procs t evs procs
      (t + (m : ℚ) * (1/5)) [] hstart hml
    rw [List.append_nil] at hb
    exact run_pipeline_intr w pl fuel procs (t + (m : ℚ) * (1/5)) evs hb

/-- The world of the C4 witness: both children run forever, the operator
presses Ctrl+C at time 1/5 (the monitoring loop's second iteration). -/
def wIntrW : World :=
  { osEnv := [], httpResp := fun _ _ => none,
    parseFloat := fun _ => 0,
    pexit := fun _ _ => none,
    intr := fun u => decide ((1/5 : ℚ) ≤ u) }

/-- Witness for CLAIM C4 at concrete inputs. -/
theorem claim4_witness :
    run_pipeline wIntrW plTwoW 3
      = some (0, [Ev.launch 0 "a", Ev.launch 1 "b"]
          ++ (shutdown_all wIntrW [("a", 0), ("b", 1)] (0 + (1 : ℚ) * (1/5))).1) :=
  (claim4_interrupt_returns_zero wIntrW plTwoW 3).2 [("a", 0), ("b", 1)] 0
    [Ev.launch 0 "a", Ev.launch 1 "b"] 1 (by decide) (by decide) (by decide) (by decide)

/-! ## Claims C2, C3, C7: startup truncation -/

/-- The cascade over a full tracked list records no launches. -/
theorem shutdown_all_no_launches (w : World) (l : List (String × ℕ)) (t : ℚ) :
    launchesOf (shutdown_all w l t).1 = [] :=
  shutdownList_no_launches w l.reverse t

/-- Startup over a decomposed step list: once the prefix completes, the run
continues at the failing step with the accumulated state. -/
theorem startupAux_split (w : World) (fuel : ℕ) (pre : List ProcSpec)
    (stepk : ProcSpec) (post : List ProcSpec) (procs1 : List (String × ℕ))
    (t1 : ℚ) (evs1 : List Ev)
    (hstart : startupAux w fuel pre 0 [] 0 [] = .ok procs1 t1 evs1) :
    startupAux w fuel (pre ++ stepk :: post) 0 [] 0 []
      = startupAux w fuel (stepk :: post) pre.length procs1 t1 evs1 := by
  rw [startupAux_append, hstart, Nat.zero_add]

/-- CLAIM C2.  If every step before `stepk` starts and passes its gate, and
`stepk`'s HTTP readiness gate never succeeds (while `stepk`'s process is
still up when the gate begins), then the run launches exactly the steps up
to and including `stepk`, invokes the shutdown cascade on every process
tracked so far (including `stepk`'s), and returns exit code 1; the gate
fails only after at least `deadline_s` of cumulative waiting. -/
theorem claim2_gate_timeout_truncates (w : World) (pl : PipelineSpec)
    (pre : List ProcSpec) (stepk : ProcSpec) (post : List ProcSpec) (ws : WaitSpec)
    (fuel : ℕ) (procs1 : List (String × ℕ)) (t1 : ℚ) (evs1 : List Ev)
    (hpl : pl.steps = pre ++ stepk :: post)
    (hstart : startupAux w fuel pre 0 [] 0 [] = .ok procs1 t1 evs1)
    (hwait : stepk.wait = some ws)
    (hkind : ws.kind = "http")
    (halive : w.pexit pre.length t1 = none)
    (hfail : ∀ u, http_ok w ws.target http_ok_default_timeout u = false)
    (hintr : ∀ u, w.intr u = false)
    (hfuel : ws.deadline_s ≤ (fuel : ℚ) * ws.poll_s) :
    ∃ t', run_pipeline w pl fuel
        = some (1, evs1 ++ [Ev.launch pre.length stepk.name]
            ++ [Ev.gate pre.length stepk.name]
            ++ (shutdown_all w (procs1 ++ [(stepk.name, pre.length)]) t').1)
      ∧ ws.deadline_s ≤ t' - t1
      ∧ launchesOf (evs1 ++ [Ev.launch pre.length stepk.name]
            ++ [Ev.gate pre.length stepk.name]
            ++ (shutdown_all w (procs1 ++ [(stepk.name, pre.length)]) t').1)
          = (trackedFrom 0 (pre ++ [stepk])).map (fun p => (p.2, p.1)) := by
  obtain ⟨t', hwh, hdl⟩ := wait_http_times_out w ws.target ws.deadline_s ws.poll_s
    hintr hfail fuel t1 t1 (by rw [sub_self]; linarith)
  have hg : apply_wait w ws fuel t1 = .err (.readinessTimeout ws.target) t' := by
    rw [apply_wait_http w ws fuel t1 hkind, hwh]
  have hsfull : startupAux w fuel pl.steps 0 [] 0 []
      = .err (.readinessTimeout ws.target) (procs1 ++ [(stepk.name, pre.length)]) t'
          (evs1 ++ [Ev.launch pre.length stepk.name] ++ [Ev.gate pre.length stepk.name]) := by
    rw [hpl, startupAux_split w fuel pre stepk post procs1 t1 evs1 hstart,
      startupAux_cons_gate_err w fuel stepk ws post pre.length procs1 t1 t' evs1 _
        hwait halive hg]
  have hrun := run_pipeline_err w pl fuel _ _ _ _ (tryBody_startup_err w pl fuel _ _ _ _ hsfull)
  obtain ⟨_, E, hE, hlE, _⟩ := startupAux_ok_spec w fuel pre 0 [] 0 [] procs1 t1 evs1 hstart
  rw [List.nil_append] at hE
  subst hE
  refine ⟨t', hrun, hdl, ?_⟩
  rw [trackedFrom_append, Nat.zero_add, List.map_append,
    launchesOf_append, launchesOf_append, launchesOf_append, hlE,
    shutdown_all_no_launches,
    show launchesOf [Ev.launch pre.length stepk.name]
      = [(pre.length, stepk.name)] from rfl,
    show launchesOf [Ev.gate pre.length stepk.name] = ([] : List (ℕ × String)) from rfl,
    show trackedFrom pre.length [stepk] = [(stepk.name, pre.length)] from rfl]
  simp

/-- CLAIM C3.  If every step before `stepk` starts and passes its gate,
`stepk` has a wait spec, and `stepk`'s process has already exited when the
post-launch poll runs, then startup fails with the early-exit error without
ever invoking the readiness gate for `stepk` (no gate event for its index
appears anywhere in the run's trace), the shutdown cascade covers every
tracked process including `stepk`'s, the run returns 1, and no later step is
launched. -/
theorem claim3_early_exit_short_circuits (w : World) (pl : PipelineSpec)
    (pre : List ProcSpec) (stepk : ProcSpec) (post : List ProcSpec) (ws : WaitSpec)
    (fuel : ℕ) (procs1 : List (String × ℕ)) (t1 : ℚ) (evs1 : List Ev) (c : PyVal)
    (hpl : pl.steps = pre ++ stepk :: post)
    (hstart : startupAux w fuel pre 0 [] 0 [] = .ok procs1 t1 evs1)
    (hwait : stepk.wait = some ws)
    (hdead : w.pexit pre.length t1 = some c) :
    tryBody w pl fuel
      = .err (.earlyExit stepk.name c) (procs1 ++ [(stepk.name, pre.length)]) t1
          (evs1 ++ [Ev.launch pre.length stepk.name])
    ∧ run_pipeline w pl fuel
      = some (1, evs1 ++ [Ev.launch pre.length stepk.name]
          ++ (shutdown_all w (procs1 ++ [(stepk.name, pre.length)]) t1).1)
    ∧ (∀ nm', Ev.gate pre.length nm'
        ∉ evs1 ++ [Ev.launch pre.length stepk.name]
            ++ (shutdown_all w (procs1 ++ [(stepk.name, pre.length)]) t1).1)
    ∧ launchesOf (evs1 ++ [Ev.launch pre.length stepk.name]
          ++ (shutdown_all w (procs1 ++ [(stepk.name, pre.length)]) t1).1)
        = (trackedFrom 0 (pre ++ [stepk])).map (fun p => (p.2, p.1)) := by
  have hsfull : startupAux w fuel pl.steps 0 [] 0 []
      = .err (.earlyExit stepk.name c) (procs1 ++ [(stepk.name, pre.length)]) t1
          (evs1 ++ [Ev.launch pre.length stepk.name]) := by
    rw [hpl, startupAux_split w fuel pre stepk post procs1 t1 evs1 hstart,
      startupAux_cons_early w fuel stepk ws post pre.length procs1 t1 evs1 c hwait hdead]
  have hb := tryBody_startup_err w pl fuel _ _ _ _ hsfull
  have hrun := run_pipeline_err w pl fuel _ _ _ _ hb
  obtain ⟨_, E, hE, hlE, hbound⟩ := startupAux_ok_spec w fuel pre 0 [] 0 [] procs1 t1 evs1 hstart
  rw [List.nil_append] at hE
  subst hE
  refine ⟨hb, hrun, ?_, ?_⟩
  · intro nm' hmem
    rw [List.mem_append] at hmem
    rcases hmem with hmem | hmem
    · rw [List.mem_append] at hmem
      rcases hmem with hmem | hmem
      · have := (hbound _ hmem).2
        rw [Nat.zero_add] at this
        simp only [evIdx] at this
        omega
      · rw [List.mem_singleton] at hmem
        cases hmem
    · rcases shutdownList_only_signals w _ t1 _ hmem with ⟨i, n, h⟩ | ⟨i, n, h⟩ <;> cases h
  · rw [trackedFrom_append, Nat.zero_add, List.map_append,
      launchesOf_append, launchesOf_append, hlE,
      shutdown_all_no_launches,
      show launchesOf [Ev.launch pre.length stepk.name]
        = [(pre.length, stepk.name)] from rfl,
      show trackedFrom pre.length [stepk] = [(stepk.name, pre.length)] from rfl]
    simp

/-- CLAIM C7 (amended: the unsupported-kind error is raised at
gate-application time, after the step's own process has been launched; no
validation happens at `WaitSpec`/`PipelineSpec` construction time).  A wait
spec whose kind is neither `"sleep"` nor `"http"` makes startup fail with
the unknown-wait-kind configuration error, after which the shutdown cascade
covers every tracked process and the run returns 1 — and the offending
step's launch record is in the trace, so its process was started before the
error was raised. -/
theorem claim7_unknown_kind_rejected_late (w : World) (pl : PipelineSpec)
    (pre : List ProcSpec) (stepk : ProcSpec) (post : List ProcSpec) (ws : WaitSpec)
    (fuel : ℕ) (procs1 : List (String × ℕ)) (t1 : ℚ) (evs1 : List Ev)
    (hpl : pl.steps = pre ++ stepk :: post)
    (hstart : startupAux w fuel pre 0 [] 0 [] = .ok procs1 t1 evs1)
    (hwait : stepk.wait = some ws)
    (hk1 : ws.kind ≠ "sleep")
    (hk2 : ws.kind ≠ "http")
    (halive : w.pexit pre.length t1 = none) :
    tryBody w pl fuel
      = .err (.unknownWaitKind ws.kind) (procs1 ++ [(stepk.name, pre.length)]) t1
          (evs1 ++ [Ev.launch pre.length stepk.name] ++ [Ev.gate pre.length stepk.name])
    ∧ run_pipeline w pl fuel
      = some (1, evs1 ++ [Ev.launch pre.length stepk.name]
          ++ [Ev.gate pre.length stepk.name]
          ++ (shutdown_all w (procs1 ++ [(stepk.name, pre.length)]) t1).1)
    ∧ (pre.length, stepk.name)
        ∈ launchesOf (evs1 ++ [Ev.launch pre.length stepk.name]
            ++ [Ev.gate pre.length stepk.name]
            ++ (shutdown_all w (procs1 ++ [(stepk.name, pre.length)]) t1).1) := by
  have hg : apply_wait w ws fuel t1 = .err (.unknownWaitKind ws.kind) t1 :=
    apply_wait_unknown w ws fuel t1 hk1 hk2
  have hsfull : startupAux w fuel pl.steps 0 [] 0 []
      = .err (.unknownWaitKind ws.kind) (procs1 ++ [(stepk.name, pre.length)]) t1
          (evs1 ++ [Ev.launch pre.length stepk.name] ++ [Ev.gate pre.length stepk.name]) := by
    rw [hpl, startupAux_split w fuel pre stepk post procs1 t1 evs1 hstart,
      startupAux_cons_gate_err w fuel stepk ws post pre.length procs1 t1 t1 evs1 _
        hwait halive hg]
  have hb := tryBody_startup_err w pl fuel _ _ _ _ hsfull
  have hrun := run_pipeline_err w pl fuel _ _ _ _ hb
  refine ⟨hb, hrun, ?_⟩
  rw [launchesOf_append, launchesOf_append, launchesOf_append]
  rw [List.mem_append, List.mem_append, List.mem_append]
  left; left; right
  rw [show launchesOf [Ev.launch pre.length stepk.name]
    = [(pre.length, stepk.name)] from rfl]
  exact List.mem_singleton.mpr rfl

/-- The HTTP wait spec of the C2 witness: one-second deadline, default poll
interval. -/
def wsGateW : WaitSpec := { kind := "http", target := "http://h/st", deadline_s := 1 }

/-- The gated step of the C2 witness. -/
def stepGateW : ProcSpec := { name := "s1", cmd := ["x"], wait := some wsGateW }

/-- A single-step pipeline whose only step is HTTP-gated. -/
def plGateW : PipelineSpec := { name := "pg", steps := [stepGateW] }

/-- Witness for CLAIM C2 at concrete inputs: the endpoint never answers, the
gate times out, the step's process is terminated, the run returns 1, and
only step `s1` is ever launched. -/
theorem claim2_witness :
    run_pipeline wHttpFailW plGateW 10
      = some (1, [Ev.launch 0 "s1", Ev.gate 0 "s1", Ev.sigterm 0 "s1", Ev.sigkill 0 "s1"])
    ∧ launchesOf [Ev.launch 0 "s1", Ev.gate 0 "s1", Ev.sigterm 0 "s1", Ev.sigkill 0 "s1"]
      = [(0, "s1")] := by
  obtain ⟨t', hrun, hdl, hl⟩ :=
    claim2_gate_timeout_truncates wHttpFailW plGateW [] stepGateW [] wsGateW 10 [] 0 []
      rfl rfl rfl rfl rfl (fun u => rfl) (fun u => rfl) (by decide)
  exact ⟨by decide, by decide⟩

/-- The world of the C3 witness: process 0 is already exited (code 3) at the
post-launch poll. -/
def wEarlyW : World :=
  { osEnv := [], httpResp := fun _ _ => none, intr := fun _ => false,
    parseFloat := fun _ => 0,
    pexit := fun i _ => if i = 0 then some (.i 3) else none }

/-- A sleep-gated first step followed by a second step. -/
def stepEarlyW : ProcSpec :=
  { name := "sE", cmd := ["x"], wait := some { kind := "sleep", target := "1" } }

/-- The two-step pipeline of the C3 witness. -/
def plEarlyW : PipelineSpec :=
  { name := "pe", steps := [stepEarlyW, { name := "s2", cmd := ["y"] }] }

/-- Witness for CLAIM C3 at concrete inputs: the first step's process dies
immediately, its gate is never entered, the second step is never launched,
and the run returns 1 (the dead process receives no signal either). -/
theorem claim3_witness :
    run_pipeline wEarlyW plEarlyW 5 = some (1, [Ev.launch 0 "sE"])
    ∧ Ev.gate 0 "sE" ∉ [Ev.launch 0 "sE"]
    ∧ launchesOf [Ev.launch 0 "sE"] = [(0, "sE")] := by
  obtain ⟨hb, hrun, hgate, hl⟩ :=
    claim3_early_exit_short_circuits wEarlyW plEarlyW [] stepEarlyW
      [{ name := "s2", cmd := ["y"] }] { kind := "sleep", target := "1" } 5 [] 0 [] (.i 3)
      rfl rfl rfl rfl
  exact ⟨by decide, by decide, by decide⟩

/-- A world with no external activity at all. -/
def wQuietW : World :=
  { osEnv := [], pexit := fun _ _ => none, httpResp := fun _ _ => none,
    intr := fun _ => false, parseFloat := fun _ => 0 }

/-- The step of the C7 counterexample: its wait kind is `"bogus"`. -/
def stepBogusW : ProcSpec :=
  { name := "s1", cmd := ["x"], wait := some { kind := "bogus", target := "" } }

/-- A pipeline containing an invalid wait kind — its construction succeeds:
no validation of the kind happens at `PipelineSpec` construction time. -/
def plBogusW : PipelineSpec := { name := "pb", steps := [stepBogusW] }

/-- COUNTEREXAMPLE to CLAIM C7 as stated.  Running the pipeline whose only
step carries the invalid wait kind `"bogus"` launches that step's process
(its launch record is in the trace) before the unsupported-kind error is
raised; the invalid kind was not rejected at construction/validation time,
and not before the launch. -/
theorem claim7_counterexample :
    run_pipeline wQuietW plBogusW 1
      = some (1, [Ev.launch 0 "s1", Ev.gate 0 "s1", Ev.sigterm 0 "s1", Ev.sigkill 0 "s1"])
    ∧ launchesOf [Ev.launch 0 "s1", Ev.gate 0 "s1", Ev.sigterm 0 "s1", Ev.sigkill 0 "s1"]
      = [(0, "s1")] := by
  exact ⟨by decide, by decide⟩

/-- Witness for CLAIM C7 (amended) at concrete inputs. -/
theorem claim7_witness :
    run_pipeline wQuietW plBogusW 1
      = some (1, [Ev.launch 0 "s1"] ++ [Ev.gate 0 "s1"]
          ++ (shutdown_all wQuietW [("s1", 0)] 0).1) := by
  obtain ⟨hb, hrun, hmem⟩ :=
    claim7_unknown_kind_rejected_late wQuietW plBogusW [] stepBogusW []
      { kind := "bogus", target := "" } 1 [] 0 []
      rfl rfl rfl (by decide) (by decide) rfl
  exact hrun

/-! ## Claim C10: steps without a wait spec get no post-launch check -/

/-- The probe outcome only depends on the world's HTTP behaviour. -/
theorem http_ok_congr (w w' : World) (hhttp : w'.httpResp = w.httpResp)
    (url : String) (ts t : ℚ) : http_ok w' url ts t = http_ok w url ts t := by
  rw [http_ok, http_ok, hhttp]

/-- The sleep gate only depends on the world's interrupt schedule. -/
theorem wait_sleep_congr (w w' : World) (hintr : w'.intr = w.intr)
    (secs t : ℚ) : wait_sleep w' secs t = wait_sleep w secs t := by
  rw [wait_sleep, wait_sleep, hintr]

/-- The HTTP gate only depends on the world's HTTP behaviour and interrupt
schedule. -/
theorem wait_http_congr (w w' : World) (hhttp : w'.httpResp = w.httpResp)
    (hintr : w'.intr = w.intr) (url : String) (deadline poll : ℚ) :
    ∀ (f : ℕ) (start t : ℚ),
      wait_http w' url deadline poll f start t = wait_http w url deadline poll f start t := by
  intro f
  induction f with
  | zero => intro start t; rfl
  | succ f ih =>
    intro start t
    rw [wait_http, wait_http, hintr, http_ok_congr w w' hhttp, ih]

/-- The readiness gate never polls any process: it only depends on the
world's HTTP behaviour, interrupt schedule and float parsing. -/
theorem apply_wait_congr (w w' : World) (hhttp : w'.httpResp = w.httpResp)
    (hintr : w'.intr = w.intr) (hpf : w'.parseFloat = w.parseFloat)
    (ws : WaitSpec) (fuel : ℕ) (t : ℚ) :
    apply_wait w' ws fuel t = apply_wait w ws fuel t := by
  by_cases h1 : ws.kind = "sleep"
  · rw [apply_wait_sleep w' ws fuel t h1, apply_wait_sleep w ws fuel t h1, hpf,
      wait_sleep_congr w w' hintr]
  · by_cases h2 : ws.kind = "http"
    · rw [apply_wait_http w' ws fuel t h2, apply_wait_http w ws fuel t h2,
        wait_http_congr w w' hhttp hintr]
    · rw [apply_wait_unknown w' ws fuel t h1 h2, apply_wait_unknown w ws fuel t h1 h2]

/-- Startup only ever polls the processes it launches in its own window: two
worlds agreeing on the HTTP behaviour, the interrupt schedule, float parsing
and the poll scripts of the launch indices covered by the remaining steps
run startup identically. -/
theorem startupAux_agree (w w' : World) (fuel : ℕ)
    (hhttp : w'.httpResp = w.httpResp) (hintr : w'.intr = w.intr)
    (hpf : w'.parseFloat = w.parseFloat) :
    ∀ (l : List ProcSpec) (i : ℕ),
      (∀ j, i ≤ j → j < i + l.length → w'.pexit j = w.pexit j) →
      ∀ (procs : List (String × ℕ)) (t : ℚ) (evs : List Ev),
        startupAux w' fuel l i procs t evs = startupAux w fuel l i procs t evs := by
  intro l
  induction l with
  | nil =>
    intro i hag procs t evs
    rw [startupAux_nil, startupAux_nil]
  | cons s l ih =>
    intro i hag procs t evs
    have hag' : ∀ j, i + 1 ≤ j → j < (i + 1) + l.length → w'.pexit j = w.pexit j := by
      intro j h1 h2
      apply hag j (by omega)
      simp only [List.length_cons]
      omega
    cases hw : s.wait with
    | none =>
      rw [startupAux_cons_nowait w' fuel s l i procs t evs hw,
        startupAux_cons_nowait w fuel s l i procs t evs hw,
        ih (i + 1) hag']
    | some ws =>
      have hpe : w'.pexit i = w.pexit i := by
        apply hag i (le_refl i)
        simp only [List.length_cons]
        omega
      cases hp : w.pexit i t with
      | some c =>
        rw [startupAux_cons_early w' fuel s ws l i procs t evs c hw (by rw [hpe]; exact hp),
          startupAux_cons_early w fuel s ws l i procs t evs c hw hp]
      | none =>
        have hp' : w'.pexit i t = none := by rw [hpe]; exact hp
        have hgw := apply_wait_congr w w' hhttp hintr hpf ws fuel t
        cases hg : apply_wait w ws fuel t with
        | ok tg =>
          rw [startupAux_cons_gate_ok w' fuel s ws l i procs t tg evs hw hp' (hgw.trans hg),
            startupAux_cons_gate_ok w fuel s ws l i procs t tg evs hw hp hg,
            ih (i + 1) hag']
        | intr tg =>
          rw [startupAux_cons_gate_intr w' fuel s ws l i procs t tg evs hw hp' (hgw.trans hg),
            startupAux_cons_gate_intr w fuel s ws l i procs t tg evs hw hp hg]
        | err e tg =>
          rw [startupAux_cons_gate_err w' fuel s ws l i procs t tg evs e hw hp' (hgw.trans hg),
            startupAux_cons_gate_err w fuel s ws l i procs t tg evs e hw hp hg]
        | fuelOut tg =>
          rw [startupAux_cons_gate_fuelOut w' fuel s ws l i procs t tg evs hw hp' (hgw.trans hg),
            startupAux_cons_gate_fuelOut w fuel s ws l i procs t tg evs hw hp hg]

/-- CLAIM C10.  A post-launch liveness check happens only for steps carrying
a wait spec.  For a step `stepk` without one: (first conjunct) the whole
startup phase is insensitive to `stepk`'s process behaviour — replacing its
poll script by anything, e.g. a process that is dead from the instant it was
launched, startup still launches every remaining step and completes
identically; and (remaining conjuncts) when `stepk`'s process is exited
whenever polled while all other processes are up, its exit is first detected
in the monitoring loop, after all steps have started, whereupon the other
processes are shut down and the run returns that exit code. -/
theorem claim10_no_wait_no_liveness_check (w : World) (pl : PipelineSpec)
    (pre : List ProcSpec) (stepk : ProcSpec) (post : List ProcSpec)
    (fuel : ℕ) (procs : List (String × ℕ)) (t1 : ℚ) (evs1 : List Ev) (c : PyVal)
    (hpl : pl.steps = pre ++ stepk :: post)
    (hwait : stepk.wait = none)
    (hstart : startupAux w fuel pl.steps 0 [] 0 [] = .ok procs t1 evs1)
    (hdead : ∀ u, w.pexit pre.length u = some c)
    (halive : ∀ i, i ≠ pre.length → w.pexit i t1 = none)
    (hintr : ∀ u, w.intr u = false)
    (hfuel : 0 < fuel) :
    (∀ g : ℚ → Option PyVal,
      startupAux (setExit w pre.length g) fuel pl.steps 0 [] 0 [] = .ok procs t1 evs1)
    ∧ run_pipeline w pl fuel
      = some (pyValToInt c,
          evs1 ++ [Ev.exitLog pre.length stepk.name c]
            ++ (shutdown_all w (procs.filter (fun p => p.2 ≠ pre.length)) t1).1)
    ∧ launchesOf evs1 = (trackedFrom 0 pl.steps).map (fun p => (p.2, p.1)) := by
  have hstartPl := hstart
  rw [hpl, startupAux_append] at hstartPl
  cases hpre : startupAux w fuel pre 0 [] 0 [] with
  | intr p1 tp ep => rw [hpre] at hstartPl; simp at hstartPl
  | err e p1 tp ep => rw [hpre] at hstartPl; simp at hstartPl
  | fuelOut p1 tp ep => rw [hpre] at hstartPl; simp at hstartPl
  | ok p1 tp ep =>
  rw [hpre, Nat.zero_add] at hstartPl
  have hstart2 : startupAux w fuel post (pre.length + 1)
      (p1 ++ [(stepk.name, pre.length)]) tp (ep ++ [Ev.launch pre.length stepk.name])
      = .ok procs t1 evs1 := by
    rw [← startupAux_cons_nowait w fuel stepk post pre.length p1 tp ep hwait]
    exact hstartPl
  refine ⟨?_, ?_, ?_⟩
  · intro g
    have hfields1 : (setExit w pre.length g).httpResp = w.httpResp := rfl
    have hfields2 : (setExit w pre.length g).intr = w.intr := rfl
    have hfields3 : (setExit w pre.length g).parseFloat = w.parseFloat := rfl
    have hagpre : ∀ j, 0 ≤ j → j < 0 + pre.length →
        (setExit w pre.length g).pexit j = w.pexit j := by
      intro j _ hj
      funext u
      show (if j = pre.length then g u else w.pexit j u) = w.pexit j u
      rw [if_neg (by omega)]
    have hagpost : ∀ j, pre.length + 1 ≤ j → j < (pre.length + 1) + post.length →
        (setExit w pre.length g).pexit j = w.pexit j := by
      intro j h1 _
      funext u
      show (if j = pre.length then g u else w.pexit j u) = w.pexit j u
      rw [if_neg (by omega)]
    have hpre' : startupAux (setExit w pre.length g) fuel pre 0 [] 0 [] = .ok p1 tp ep :=
      (startupAux_agree w (setExit w pre.length g) fuel hfields1 hfields2 hfields3
        pre 0 hagpre [] 0 []).trans hpre
    rw [hpl, startupAux_split (setExit w pre.length g) fuel pre stepk post p1 tp ep hpre',
      startupAux_cons_nowait (setExit w pre.length g) fuel stepk post pre.length p1 tp ep hwait,
      startupAux_agree w (setExit w pre.length g) fuel hfields1 hfields2 hfields3
        post (pre.length + 1) hagpost]
    exact hstart2
  · obtain ⟨hprocs, E, hE, hlE, _⟩ :=
      startupAux_ok_spec w fuel pl.steps 0 [] 0 [] procs t1 evs1 hstart
    rw [List.nil_append] at hprocs hE
    have htrack : procs = trackedFrom 0 pre
        ++ (stepk.name, pre.length) :: trackedFrom (pre.length + 1) post := by
      rw [hprocs, hpl, trackedFrom_append, Nat.zero_add, trackedFrom]
    have hpoll : pollFirst w procs t1 = some (stepk.name, pre.length, c) := by
      rw [htrack]
      apply pollFirst_first w t1 stepk.name pre.length c (trackedFrom 0 pre) _ ?_ (hdead t1)
      intro q hq
      have hidx := trackedFrom_idx pre 0 q hq
      exact halive q.2 (by omega)
    have hm := monitorLoop_finds w procs stepk.name pre.length c hintr 0 fuel t1 hfuel
      (fun m' hm' => absurd hm' (Nat.not_lt_zero m')) (by simpa using hpoll)
    simp only [Nat.cast_zero, zero_mul, add_zero] at hm
    have hb := tryBody_monitor_exited w pl fuel procs t1 evs1 pre.length stepk.name c
      procs t1 [Ev.exitLog pre.length stepk.name c] hstart hm
    exact run_pipeline_exited w pl fuel pre.length stepk.name c procs t1
      (evs1 ++ [Ev.exitLog pre.length stepk.name c]) hb
  · obtain ⟨hprocs, E, hE, hlE, _⟩ :=
      startupAux_ok_spec w fuel pl.steps 0 [] 0 [] procs t1 evs1 hstart
    rw [List.nil_append] at hE
    rw [hE, hlE]

/-- The world of the C10 witness: process 0 is exited (code 5) whenever
polled — including the instant it is launched — and every other process runs
forever. -/
def wTenW : World :=
  { osEnv := [], httpResp := fun _ _ => none, intr := fun _ => false,
    parseFloat := fun _ => 0,
    pexit := fun i _ => if i = 0 then some (.i 5) else none }

/-- Witness for CLAIM C10 at concrete inputs: although the first (wait-less)
step dies immediately, the second step is still launched; the exit is
detected at the first monitoring scan, the second process is shut down, and
the run returns 5.  The startup phase runs identically under any replacement
behaviour for process 0. -/
theorem claim10_witness :
    startupAux (setExit wTenW 0 (fun _ => none)) 1 plTwoW.steps 0 [] 0 []
      = .ok [("a", 0), ("b", 1)] 0 [Ev.launch 0 "a", Ev.launch 1 "b"]
    ∧ run_pipeline wTenW plTwoW 1
      = some (pyValToInt (.i 5),
          [Ev.launch 0 "a", Ev.launch 1 "b"] ++ [Ev.exitLog 0 "a" (.i 5)]
            ++ (shutdown_all wTenW
                  ([("a", 0), ("b", 1)].filter (fun p => p.2 ≠ 0)) 0).1) := by
  obtain ⟨h1, h2, h3⟩ :=
    claim10_no_wait_no_liveness_check wTenW plTwoW [] { name := "a", cmd := ["x"] }
      [{ name := "b", cmd := ["y"] }] 1 [("a", 0), ("b", 1)] 0
      [Ev.launch 0 "a", Ev.launch 1 "b"] (.i 5)
      rfl rfl (by decide) (fun u => rfl)
      (by intro i hi
          have hi0 : ¬ i = 0 := by simpa using hi
          simp [wTenW, hi0])
      (fun u => rfl)
      (by decide)
  exact ⟨h1 (fun _ => none), h2⟩

/-! ## Claim C8: child process environment -/

/-- A supervisor environment for the C8 theorems: the inherited environment
has a PATH entry and buffering explicitly enabled. -/
def wEnvW : World :=
  { osEnv := [("PATH", "/bin"), ("PYTHONUNBUFFERED", "0")],
    pexit := fun _ _ => none, httpResp := fun _ _ => none,
    intr := fun _ => false, parseFloat := fun _ => 0 }

/-- A step whose env overrides set the unbuffered key to `"0"`. -/
def specPUW : ProcSpec :=
  { name := "s", cmd := ["x"], env := some [("PYTHONUNBUFFERED", "0")] }

/-- COUNTEREXAMPLE to CLAIM C8 as stated.  The step's env overrides are
merged on top of the projected environment, so a step override of the
unbuffered key wins: the child of `specPUW` runs with `PYTHONUNBUFFERED =
"0"`, not `"1"` — unbuffered output is not forced regardless of the step's
env contents. -/
theorem claim8_counterexample :
    dlookup (popen_env wEnvW specPUW) "PYTHONUNBUFFERED" = some "0"
    ∧ dlookup (popen_env wEnvW specPUW) "PYTHONUNBUFFERED" ≠ some "1" := by
  exact ⟨by decide, by decide⟩

/-- CLAIM C8 (amended: the unbuffered-output setting is forced before the
step overrides are merged, so a step override of that key wins).  For every
key, the child environment of a launched step looks up to: the step's own
override when present; otherwise `"1"` for the unbuffered key; otherwise the
inherited environment — i.e. the child environment is the inherited one with
unbuffered output forced and the step overrides merged on top, overriding on
key collision, and unbuffered output is forced for every child whose
overrides do not themselves rebind the unbuffered key. -/
theorem claim8_env_merge (w : World) (spec : ProcSpec) (k : String)
    (hnodup : ((spec.env.getD []).map Prod.fst).Nodup) :
    dlookup (popen_env w spec) k
      = (match dlookup (spec.env.getD []) k with
         | some v => some v
         | none => if k = "PYTHONUNBUFFERED" then some "1" else dlookup w.osEnv k)
    ∧ (dlookup (spec.env.getD []) "PYTHONUNBUFFERED" = none →
        dlookup (popen_env w spec) "PYTHONUNBUFFERED" = some "1") := by
  have hproj : ∀ k', dlookup (project_env w) k'
      = if k' = "PYTHONUNBUFFERED" then some "1" else dlookup w.osEnv k' := by
    intro k'
    rw [project_env, dlookup_dset]
  have hmain : ∀ k', dlookup (popen_env w spec) k'
      = (match dlookup (spec.env.getD []) k' with
         | some v => some v
         | none => if k' = "PYTHONUNBUFFERED" then some "1" else dlookup w.osEnv k') := by
    intro k'
    rw [popen_env]
    cases henv : spec.env with
    | none =>
      show dlookup (project_env w) k'
          = if k' = "PYTHONUNBUFFERED" then some "1" else dlookup w.osEnv k'
      exact hproj k'
    | some e =>
      have hnodup' : (e.map Prod.fst).Nodup := by rw [henv] at hnodup; exact hnodup
      show dlookup (if e.isEmpty = true then project_env w else dupdate (project_env w) e) k'
          = match dlookup e k' with
            | some v => some v
            | none => if k' = "PYTHONUNBUFFERED" then some "1" else dlookup w.osEnv k'
      cases he : e.isEmpty with
      | true =>
        rw [if_pos rfl]
        have he' : e = [] := List.isEmpty_iff.mp he
        rw [he', dlookup_nil]
        exact hproj k'
      | false =>
        rw [if_neg (by exact Bool.false_ne_true)]
        rw [dlookup_dupdate e (project_env w) k' hnodup']
        cases dlookup e k' with
        | some v => rfl
        | none => exact hproj k'
  refine ⟨hmain k, ?_⟩
  intro hnone
  rw [hmain "PYTHONUNBUFFERED", hnone]
  rfl

/-- A step with an unrelated env override. -/
def specFooW : ProcSpec :=
  { name := "s2", cmd := ["x"], env := some [("FOO", "bar")] }

/-- Witness for CLAIM C8 (amended) at concrete inputs: the override is
visible in the child environment, and since it does not rebind the
unbuffered key, unbuffered output is still forced (overriding the inherited
`"0"`). -/
theorem claim8_witness :
    dlookup (popen_env wEnvW specFooW) "FOO" = some "bar"
    ∧ dlookup (popen_env wEnvW specFooW) "PYTHONUNBUFFERED" = some "1" :=
  ⟨((claim8_env_merge wEnvW specFooW "FOO" (by decide)).1).trans (by decide),
   (claim8_env_merge wEnvW specFooW "PYTHONUNBUFFERED" (by decide)).2 (by decide)⟩
